import Mathlib

/-!
Verification development for the iptvtester repository.

The Python modules `iptvtester/tmdb.py`, `iptvtester/probe.py` and
`iptvtester/m3u.py` are embedded shallowly below.  Pure text-processing
helpers become Lean functions on `String` / `List Char`; each regular
expression used by the source is embedded as a dedicated matcher that
follows Python `re` semantics (leftmost scan, ordered alternation,
greedy/lazy quantifiers with backtracking, `\b` word boundaries) for the
exact pattern appearing in the source.  Character classes such as `\s`
and `\w` are modelled on their ASCII subset, which covers the playlist
data this program processes.  Network calls, the sqlite connection and
the thread pool are modelled by explicit oracle functions and state
passing: the cache database table `tmdb_series_occ` is a function from
keys to optional rows, and the TMDB search endpoints are function
parameters.
-/

namespace IptvTester

/-- ASCII whitespace: the subset of the regex class `\s` and of Python
`str.strip()` exercised by this program's data. -/
def isSpacePy (c : Char) : Bool :=
  c = ' ' || c = '\t' || c = '\n' || c = '\r' || c = Char.ofNat 11 || c = Char.ofNat 12

def isDigitPy (c : Char) : Bool :=
  '0' ≤ c && c ≤ '9'

def isUpperPy (c : Char) : Bool :=
  'A' ≤ c && c ≤ 'Z'

def isLowerPy (c : Char) : Bool :=
  'a' ≤ c && c ≤ 'z'

def isAlphaPy (c : Char) : Bool :=
  isUpperPy c || isLowerPy c

/-- Word character for the regex `\b` boundary (ASCII scope). -/
def isWordPy (c : Char) : Bool :=
  isAlphaPy c || isDigitPy c || c = '_'

/-- `\b` between an optional previous character and an optional next
character: true when exactly one side is a word character (a missing
side counts as non-word). -/
def wordBoundary (prev next : Option Char) : Bool :=
  (match prev with | some c => isWordPy c | none => false)
    != (match next with | some c => isWordPy c | none => false)

def toLowerPy (c : Char) : Char :=
  if isUpperPy c then Char.ofNat (c.toNat + 32) else c

def toUpperPy (c : Char) : Char :=
  if isLowerPy c then Char.ofNat (c.toNat - 32) else c

def dropTrailing (p : Char → Bool) (l : List Char) : List Char :=
  (l.reverse.dropWhile p).reverse

def stripList (p : Char → Bool) (l : List Char) : List Char :=
  dropTrailing p (l.dropWhile p)

/-- Python `str.strip()` (no argument): remove whitespace on both ends. -/
def pyStrip (s : String) : String :=
  ⟨stripList isSpacePy s.data⟩

/-- Python `str.strip(chars)` with an explicit character set. -/
def pyStripChars (chars : List Char) (s : String) : String :=
  ⟨stripList (fun c => chars.contains c) s.data⟩

/-- `re.sub(r'\s+', ' ', s)`: collapse every maximal whitespace run to a
single space (`inWs` records being inside a run). -/
def squeezeGo : Bool → List Char → List Char
  | _, [] => []
  | inWs, c :: rest =>
    if isSpacePy c then
      if inWs then squeezeGo true rest else ' ' :: squeezeGo true rest
    else c :: squeezeGo false rest

def squeezeWsL (l : List Char) : List Char :=
  squeezeGo false l

def squeezeWs (s : String) : String :=
  ⟨squeezeWsL s.data⟩

def pyLower (s : String) : String :=
  ⟨s.data.map toLowerPy⟩

def pyUpper (s : String) : String :=
  ⟨s.data.map toUpperPy⟩

/-- Python `str.capitalize()`: first character upper-cased, the rest
lower-cased (ASCII scope). -/
def pyCapitalize (s : String) : String :=
  match s.data with
  | [] => ""
  | c :: rest => ⟨toUpperPy c :: rest.map toLowerPy⟩

/-- Python truthiness chain `a or b` for optional strings: an absent or
empty string falls through to the default. -/
def pyOrStr (o : Option String) (d : String) : String :=
  match o with
  | some s => if s = "" then d else s
  | none => d

/-- Python `a or b or c or ""` over optional string fields. -/
def firstNonEmptyStr : List (Option String) → String
  | [] => ""
  | o :: rest => match o with
    | some s => if s = "" then firstNonEmptyStr rest else s
    | none => firstNonEmptyStr rest

/-- Python no-argument `str.split()`: split on whitespace runs, dropping
empty pieces (`acc` holds the current word, reversed). -/
def pySplitWsGo (acc : List Char) : List Char → List String
  | [] => if acc.isEmpty then [] else [⟨acc.reverse⟩]
  | c :: rest =>
    if isSpacePy c then
      if acc.isEmpty then pySplitWsGo [] rest
      else (⟨acc.reverse⟩ : String) :: pySplitWsGo [] rest
    else pySplitWsGo (c :: acc) rest

def pySplitWs (s : String) : List String :=
  pySplitWsGo [] s.data

/-- Python `str.rstrip(chars)`. -/
def pyRstripChars (chars : List Char) (s : String) : String :=
  ⟨dropTrailing (fun c => chars.contains c) s.data⟩

/-- Python `s.split(sep, limit)` for a single-character separator: at
most `limit` splits, remainder kept whole. -/
def splitCharLim (sep : Char) : Nat → List Char → List String
  | 0, s => [⟨s⟩]
  | n + 1, s =>
    match s.findIdx? (· = sep) with
    | none => [⟨s⟩]
    | some i => (⟨s.take i⟩ : String) :: splitCharLim sep n (s.drop (i + 1))

/-- Python `s.split(sep)` (unbounded) for a single-character separator. -/
def splitCharAll (sep : Char) (s : List Char) : List String :=
  splitCharLim sep s.length s

/-- A regex matcher anchored at one position: given the character just
before the position (for `\b`) and the remaining input, return the
number of characters consumed (at least 1 for every pattern embedded
below) together with the captures. -/
abbrev Matcher (κ : Type) := Option Char → List Char → Option (Nat × κ)

/-- `re.sub` driver: scan left to right, replace every non-overlapping
match of `m` by `repl`, collecting captures in match order.  `fuel`
bounds the recursion; every matcher used consumes at least one
character, so `fuel = s.length` suffices.  A zero-length match is
treated as a non-match (no pattern below can produce one). -/
def subAllGo (m : Matcher κ) (repl : List Char) :
    Nat → Option Char → List Char → List Char × List κ
  | 0, _, s => (s, [])
  | _ + 1, _, [] => ([], [])
  | fuel + 1, prev, c :: rest =>
    match m prev (c :: rest) with
    | some (n, cap) =>
      if n = 0 then
        let r := subAllGo m repl fuel (some c) rest
        (c :: r.1, r.2)
      else
        let s := c :: rest
        let r := subAllGo m repl fuel ((s.take n).getLast?) (s.drop n)
        (repl ++ r.1, cap :: r.2)
    | none =>
      let r := subAllGo m repl fuel (some c) rest
      (c :: r.1, r.2)

def subAll (m : Matcher κ) (repl : List Char) (s : List Char) : List Char × List κ :=
  subAllGo m repl s.length none s

/-- First (leftmost) match of `m`: the characters before the match, its
capture, and the rest after it. -/
def findFirstGo (m : Matcher κ) :
    Nat → Option Char → List Char → Option (List Char × κ × List Char)
  | 0, _, _ => none
  | _ + 1, _, [] => none
  | fuel + 1, prev, c :: rest =>
    match m prev (c :: rest) with
    | some (n, cap) =>
      if n = 0 then
        (findFirstGo m fuel (some c) rest).map (fun r => (c :: r.1, r.2.1, r.2.2))
      else some ([], cap, (c :: rest).drop n)
    | none =>
      (findFirstGo m fuel (some c) rest).map (fun r => (c :: r.1, r.2.1, r.2.2))

/-- `re.split(pat, s, maxsplit=1)`: the pieces before and after the
first match, or `none` when the pattern does not occur. -/
def pySplit1 (m : Matcher κ) (s : List Char) : Option (List Char × List Char) :=
  (findFirstGo m s.length none s).map (fun r => (r.1, r.2.2))

def digitVal (c : Char) : Nat :=
  c.toNat - '0'.toNat

/-- Length of the leading whitespace run. -/
def wsCount (s : List Char) : Nat :=
  (s.takeWhile isSpacePy).length

/-- `(\d{1,2})\b`: greedily take two digits if the following word
boundary holds, else backtrack to one digit.  Returns (consumed,
numeric value). -/
def digits12Boundary : List Char → Option (Nat × Nat)
  | [] => none
  | [d1] =>
    if isDigitPy d1 && wordBoundary (some d1) none then some (1, digitVal d1) else none
  | d1 :: d2 :: rest =>
    if isDigitPy d1 then
      if isDigitPy d2 && wordBoundary (some d2) rest.head? then
        some (2, 10 * digitVal d1 + digitVal d2)
      else if wordBoundary (some d1) (some d2) then
        some (1, digitVal d1)
      else none
    else none

/-- Tail `\s*[Ee]\s*?(\d{1,2})\b` of the S/E token: the lazy `\s*?`
before digits is forced to the whole whitespace run followed by a
digit. -/
def seMid (s : List Char) : Option (Nat × Nat) :=
  let k := wsCount s
  match s.drop k with
  | e :: r =>
    if e = 'E' ∨ e = 'e' then
      let k2 := wsCount r
      match digits12Boundary (r.drop k2) with
      | some (nd, v) => some (k + 1 + k2 + nd, v)
      | none => none
    else none
  | [] => none

/-- Matcher for `_SE_TOKEN_RE = (?ix)\b(?:S\s*?(\d{1,2}))\s*(?:E\s*?(\d{1,2}))\b`
(tmdb.py line 72; m3u.py line 89 compiles the same pattern).  Captures
the (season, episode) pair.  When two season digits are present, the
one-digit backtrack cannot succeed (the character after one digit is a
digit, matching neither `\s` nor `E`), so trying two digits first is
exact. -/
def matchSeToken : Matcher (Nat × Nat) := fun prev s =>
  match s with
  | [] => none
  | c :: rest =>
    if (c = 'S' ∨ c = 's') ∧ wordBoundary prev (some c) then
      let k1 := wsCount rest
      match rest.drop k1 with
      | [] => none
      | d1 :: r2 =>
        if isDigitPy d1 then
          match r2 with
          | [] => none
          | d2 :: r3 =>
            if isDigitPy d2 then
              (seMid r3).map (fun p => (1 + k1 + 2 + p.1, (10 * digitVal d1 + digitVal d2, p.2)))
            else
              (seMid r2).map (fun p => (1 + k1 + 1 + p.1, (digitVal d1, p.2)))
        else none
    else none

/-- Tail `\sE\d{1,2}\b` of the split pattern (exactly one whitespace
character before `E`). -/
def splitSeTail (s : List Char) : Option Nat :=
  match s with
  | w :: e :: r =>
    if isSpacePy w ∧ (e = 'E' ∨ e = 'e') then
      (digits12Boundary r).map (fun p => 2 + p.1)
    else none
  | _ => none

/-- Matcher for `re.split(r'(?ix)\sS\d{1,2}\sE\d{1,2}\b', ...)`
(tmdb.py line 137; m3u.py line 101): one whitespace, S, one or two
digits, one whitespace, E, one or two digits, word boundary. -/
def matchSplitSe : Matcher Unit := fun _ s =>
  match s with
  | w :: c :: rest =>
    if isSpacePy w ∧ (c = 'S' ∨ c = 's') then
      match rest with
      | [] => none
      | d1 :: r1 =>
        if isDigitPy d1 then
          match r1 with
          | [] => none
          | d2 :: r2 =>
            if isDigitPy d2 then
              (splitSeTail r2).map (fun n => (2 + 2 + n, ()))
            else
              (splitSeTail r1).map (fun n => (2 + 1 + n, ()))
        else none
    else none
  | _ => none

/-- The set-once accumulator mirroring the nonlocal
`first_s`/`first_e` of `_strip_all_se_tokens`: keep the first value,
ignore the rest. -/
def setOnce {α : Type} (acc : Option α) (c : α) : Option α :=
  match acc with
  | none => some c
  | some p => some p

/-- `_strip_all_se_tokens` (tmdb.py lines 89-107): pad with one space on
each side, remove all `Sxx Exx` tokens (each replaced by a single
space), capture the first (season, episode) pair seen — set-once,
mirroring the nonlocal `first_s`/`first_e` of the source — then
collapse whitespace and strip. -/
def stripAllSeTokens (text : String) : String × Option Nat × Option Nat :=
  if text = "" then ("", none, none)
  else
    let s := ' ' :: text.data ++ [' ']
    let r := subAllGo matchSeToken [' '] s.length none s
    let fst := r.2.foldl setOnce (none : Option (Nat × Nat))
    (pyStrip (squeezeWs ⟨r.1⟩), fst.map Prod.fst, fst.map Prod.snd)

/-- Case-insensitive ASCII literal match (`pat` given lower-case):
returns the consumed length. -/
def litCI : List Char → List Char → Option Nat
  | [], _ => some 0
  | _ :: _, [] => none
  | p :: ps, c :: cs => if toLowerPy c = p then (litCI ps cs).map (· + 1) else none

/-- Word boundary after `n` consumed characters of `s`. -/
def boundaryAfter (s : List Char) (n : Nat) : Bool :=
  wordBoundary (s.get? (n - 1)) (s.get? n)

/-- `dolby\s+vision`. -/
def techDolby (s : List Char) : Option Nat :=
  (litCI "dolby".data s).bind (fun n1 =>
    let k := wsCount (s.drop n1)
    if k = 0 then none
    else (litCI "vision".data (s.drop (n1 + k))).map (fun n2 => n1 + k + n2))

/-- `ddp\.\d+` (the dotted option of `ddp(?:\.\d+)?`): the digit run is
greedy; the trailing `\b` (checked by the caller) can only hold after
the full run, since any shorter take is followed by a digit. -/
def techDdpDot (s : List Char) : Option Nat :=
  (litCI "ddp.".data s).bind (fun n1 =>
    let r := ((s.drop n1).takeWhile isDigitPy).length
    if r = 0 then none else some (n1 + r))

/-- Ordered attempt list for `_TECH_RE` (tmdb.py lines 58-60), each
alternative's optional parts flattened in the order Python's
backtracking tries them (`hdr10\+?` tries `hdr10+` then `hdr10`,
`h\.?264` tries `h.264` then `h264`, `bd(?:rip)?` tries `bdrip` then
`bd`, `web[- ]?dl` tries the separated forms then the joined one, and
`ddp(?:\.\d+)?` tries the dotted form then plain `ddp`). -/
def techAttempts : List (List Char → Option Nat) :=
  [litCI "4k".data, litCI "8k".data, litCI "2160p".data, litCI "1440p".data,
   litCI "1080p".data, litCI "720p".data, litCI "480p".data, litCI "uhd".data,
   litCI "hdr10+".data, litCI "hdr10".data, litCI "hdr".data,
   techDolby, litCI "dv".data,
   litCI "h.264".data, litCI "h264".data, litCI "x264".data,
   litCI "h.265".data, litCI "h265".data, litCI "x265".data,
   litCI "hevc".data, litCI "aac".data,
   techDdpDot, litCI "ddp".data,
   litCI "atmos".data, litCI "truehd".data,
   litCI "bdrip".data, litCI "bd".data,
   litCI "web-dl".data, litCI "web dl".data, litCI "webdl".data,
   litCI "web-rip".data, litCI "web rip".data, litCI "webrip".data,
   litCI "hdtv".data, litCI "remux".data]

/-- Try the attempts in order; an attempt only succeeds when the word
boundary after its consumed text holds (a failed trailing `\b` falls
through to the next option, as the engine's backtracking does). -/
def firstAttempt : List (List Char → Option Nat) → List Char → Option Nat
  | [], _ => none
  | f :: fs, s =>
    match f s with
    | some n => if boundaryAfter s n then some n else firstAttempt fs s
    | none => firstAttempt fs s

/-- Matcher for `_TECH_RE` (case-insensitive, `\b` on both sides). -/
def matchTech : Matcher Unit := fun prev s =>
  if wordBoundary prev s.head? then
    (firstAttempt techAttempts s).map (fun n => (n, ()))
  else none

/-- Matcher for `_COUNTRY_TAG_RE = \(([A-Z]{2,4})\)` (tmdb.py line 62,
case-sensitive).  With a maximal run of `r` upper-case letters after
the parenthesis, only `r` of them can be followed by `)`, so the
greedy 4→2 backtrack reduces to checking `2 ≤ r ≤ 4`. -/
def matchCountryTag : Matcher Unit := fun _ s =>
  match s with
  | '(' :: rest =>
    let r := (rest.takeWhile isUpperPy).length
    if 2 ≤ r ∧ r ≤ 4 ∧ (rest.drop r).head? = some ')' then some (1 + r + 1, ())
    else none
  | _ => none

/-- `(19|20)\d{2}`: a four-digit year starting 19 or 20. -/
def year4 (s : List Char) : Bool :=
  match s with
  | a :: b :: c :: d :: _ =>
    ((a = '1' ∧ b = '9') ∨ (a = '2' ∧ b = '0')) ∧ isDigitPy c ∧ isDigitPy d
  | _ => false

/-- Separator part `\s*[-– ]\s*` of the year-range pattern.  The class
contains the space character, so after the greedy `\s*` either the
next character is a dash (en dash or hyphen), or — backtracking one
whitespace step — the last space itself is the separator and the
second `\s*` is empty. -/
def yearRangeSep (s : List Char) : Option Nat :=
  let k := wsCount s
  match (s.drop k).head? with
  | some c =>
    if c = '-' ∨ c = '–' then some (k + 1 + wsCount (s.drop (k + 1)))
    else if 1 ≤ k then some k
    else none
  | none => if 1 ≤ k then some k else none

/-- Matcher for `_YEAR_RANGE_PAREN_RE =
\(\s*(?:19|20)\d{2}\s*[-– ]\s*(?:19|20)\d{2}\s*\)` (tmdb.py line 63). -/
def matchYearRangeParen : Matcher Unit := fun _ s =>
  match s with
  | '(' :: rest =>
    let k1 := wsCount rest
    if year4 (rest.drop k1) then
      let p1 := k1 + 4
      match yearRangeSep (rest.drop p1) with
      | some nsep =>
        if year4 (rest.drop (p1 + nsep)) then
          let p2 := p1 + nsep + 4
          let k3 := wsCount (rest.drop p2)
          if (rest.drop (p2 + k3)).head? = some ')' then some (1 + p2 + k3 + 1, ())
          else none
        else none
      | none => none
    else none
  | _ => none

/-- Matcher for `_SINGLE_YEAR_PAREN_RE = [\(\[\{]\s*(19|20)\d{2}\s*[\)\]\}]`
(tmdb.py line 64). -/
def matchYearParen : Matcher Unit := fun _ s =>
  match s with
  | o :: rest =>
    if o = '(' ∨ o = '[' ∨ o = Char.ofNat 123 then
      let k1 := wsCount rest
      if year4 (rest.drop k1) then
        let k2 := wsCount (rest.drop (k1 + 4))
        match (rest.drop (k1 + 4 + k2)).head? with
        | some cl =>
          if cl = ')' ∨ cl = ']' ∨ cl = Char.ofNat 125 then some (1 + k1 + 4 + k2 + 1, ())
          else none
        | none => none
      else none
    else none
  | [] => none

/-- Matcher for `_SINGLE_YEAR_TRAIL_RE = \b(19|20)\d{2}\b(?=\s*$)`
(tmdb.py line 65): the lookahead requires only whitespace to the end
of the string. -/
def matchYearTrail : Matcher Unit := fun prev s =>
  if wordBoundary prev s.head? then
    if year4 s ∧ wordBoundary (s.get? 3) (s.get? 4) ∧ (s.drop 4).all isSpacePy then
      some (4, ())
    else none
  else none

/-- Matcher for `_SINGLE_YEAR_DASH_RE = \s*[-–—]\s*(?=(19|20)\d{2}\b)`
(tmdb.py line 66): the looked-ahead year is not consumed. -/
def matchYearDash : Matcher Unit := fun _ s =>
  let k := wsCount s
  match (s.drop k).head? with
  | some d =>
    if d = '-' ∨ d = '–' ∨ d = '—' then
      let k2 := wsCount (s.drop (k + 1))
      let rest := s.drop (k + 1 + k2)
      if year4 rest ∧ wordBoundary (rest.get? 3) (rest.get? 4) then some (k + 1 + k2, ())
      else none
    else none
  | none => none

/-- The `cap[ií]tulo` alternative: under `(?i)` the class `[ií]` also
matches `I` and `Í` (U+00CD). -/
def capituloWord (s : List Char) : Option Nat :=
  (litCI "cap".data s).bind (fun n =>
    match (s.drop n).head? with
    | some c =>
      if c = 'i' ∨ c = 'I' ∨ c = Char.ofNat 237 ∨ c = Char.ofNat 205 then
        (litCI "tulo".data (s.drop (n + 1))).map (fun m => n + 1 + m)
      else none
    | none => none)

/-- The word alternatives of `_EP_LABELS_RE` in source order.  No two
alternatives can match at the same position (none is a prefix of a
common input with another), so ordered `<|>` is exact. -/
def epLabelWord (s : List Char) : Option Nat :=
  litCI "episode".data s <|> litCI "folge".data s <|> litCI "chapter".data s <|>
  capituloWord s <|> litCI "capitolo".data s <|> litCI "episodio".data s <|>
  litCI "part".data s <|> litCI "teil".data s

def isRomanDigit (c : Char) : Bool :=
  c = 'I' || c = 'V' || c = 'X' || c = 'L' || c = 'C' ||
  c = 'i' || c = 'v' || c = 'x' || c = 'l' || c = 'c' || isDigitPy c

/-- Matcher for `_EP_LABELS_RE` (tmdb.py lines 68-70):
`(?i)\b(?:episode|folge|chapter|cap[ií]tulo|capitolo|episodio|part|teil)\s*[#:\-]?\s*[IVXLC\d]+\b`.
With a maximal roman/digit run the trailing `\b` can only hold after
the full run; and when the optional separator is present but the run
fails, the separator-free backtrack places the class on the separator
character and fails as well. -/
def matchEpLabel : Matcher Unit := fun prev s =>
  if wordBoundary prev s.head? then
    match epLabelWord s with
    | some nw =>
      let k := wsCount (s.drop nw)
      let sep :=
        match (s.drop (nw + k)).head? with
        | some c => if c = '#' ∨ c = ':' ∨ c = '-' then 1 else 0
        | none => 0
      let k2 := if sep = 1 then wsCount (s.drop (nw + k + 1)) else 0
      let base := nw + k + sep + k2
      let run := ((s.drop base).takeWhile isRomanDigit).length
      if run = 0 then none
      else if boundaryAfter s (base + run) then some (base + run, ())
      else none
    | none => none
  else none

/-- `_base_noise_strip` (tmdb.py lines 74-84): pad with one space each
side, apply the seven noise substitutions in source order (each match
replaced by one space), collapse whitespace, then strip space and dash
characters from both ends. -/
def baseNoiseStrip (t : String) : String :=
  let s0 := ' ' :: t.data ++ [' ']
  let s1 := (subAll matchTech [' '] s0).1
  let s2 := (subAll matchCountryTag [' '] s1).1
  let s3 := (subAll matchYearRangeParen [' '] s2).1
  let s4 := (subAll matchYearParen [' '] s3).1
  let s5 := (subAll matchYearTrail [' '] s4).1
  let s6 := (subAll matchYearDash [' '] s5).1
  let s7 := (subAll matchEpLabel [' '] s6).1
  pyStripChars [' ', '-', '–', '—', '\t', '\n', '\r'] (squeezeWs ⟨s7⟩)

/-- `clean_display_title` (tmdb.py lines 86-87). -/
def cleanDisplayTitle (t : String) : String :=
  baseNoiseStrip t

/-- Tail `[-|]\s*`-with-`\s*`-before: `\s*[-|]\s*`. -/
def sepWs (s : List Char) : Option Nat :=
  let k := wsCount s
  match (s.drop k).head? with
  | some c => if c = '-' ∨ c = '|' then some (k + 1 + wsCount (s.drop (k + 1))) else none
  | none => none

/-- Tail `\|?\s*[-|]\s*` of the leading-prefix pattern.  The optional
pipe is tried first; when it makes the separator fail, backtracking
lets the pipe itself serve as the separator. -/
def leadPreTail (s : List Char) : Option Nat :=
  (if s.head? = some '|' then (sepWs (s.drop 1)).map (fun n => 1 + n) else none)
    <|> sepWs s

/-- Anchored matcher for
`_PREFIX_LEAD_RE = ^\s*\|?([A-Z]{2,4})\|?\s*[-|]\s*` with
`re.IGNORECASE` (tmdb.py line 53; m3u.py line 84 and pipeline.py line
80 compile the same pattern).  Letter takes of 4, 3, 2 are tried in
greedy order; the optional first pipe needs no backtrack (a letter can
never match the pipe position).  Returns the consumed length. -/
def matchLeadPre (s : List Char) : Option Nat :=
  let k := wsCount s
  let body0 := s.drop k
  let p := if body0.head? = some '|' then 1 else 0
  let body := body0.drop p
  let r := (body.takeWhile isAlphaPy).length
  let cont := fun (nl : Nat) => (leadPreTail (body.drop nl)).map (fun nt => k + p + nl + nt)
  if 4 ≤ r then cont 4 <|> cont 3 <|> cont 2
  else if 3 ≤ r then cont 3 <|> cont 2
  else if 2 ≤ r then cont 2
  else none

/-- `strip_leading_prefix` (tmdb.py lines 54-55): the `^`-anchored
pattern is removed at most once by `re.sub`, then the result is
stripped.  m3u.py's `_strip_series_prefix` (lines 86-87) is the same
function over the same pattern. -/
def stripLeadingPrefix (title : String) : String :=
  match matchLeadPre title.data with
  | some n => pyStrip ⟨title.data.drop n⟩
  | none => pyStrip title

/-- Separator check `\s*[\|\-]` (no trailing `\s*`). -/
def sepNoWsAfter (s : List Char) : Bool :=
  match (s.drop (wsCount s)).head? with
  | some c => c = '-' ∨ c = '|'
  | none => false

/-- Tail `\|?\s*[\|\-]` of the first `detect_prefix` pattern. -/
def detect1Tail (s : List Char) : Bool :=
  (if s.head? = some '|' then sepNoWsAfter (s.drop 1) else false) || sepNoWsAfter s

/-- The greedy `([A-Z]{2,4})` capture: letter takes of 4, 3, 2 tried in
order, each accepted when the continuation `tail` holds after that many
letters. -/
def upperCapChain (body : List Char) (tail : Nat → Bool) : Option String :=
  let r := (body.takeWhile isUpperPy).length
  if 4 ≤ r ∧ tail 4 = true then some ⟨body.take 4⟩
  else if 3 ≤ r ∧ tail 3 = true then some ⟨body.take 3⟩
  else if 2 ≤ r ∧ tail 2 = true then some ⟨body.take 2⟩
  else none

/-- Anchored matcher for `re.match(r'^\s*\|?([A-Z]{2,4})\|?\s*[\|\-]', g)`
(tmdb.py line 47, case-sensitive): returns the captured letters. -/
def matchDetect1 (s : List Char) : Option String :=
  let k := wsCount s
  let body0 := s.drop k
  let p := if body0.head? = some '|' then 1 else 0
  let body := body0.drop p
  upperCapChain body (fun j => detect1Tail (body.drop j))

/-- Tail `\|?\b` of the second `detect_prefix` pattern after `nl`
letters: the pipe option first (boundary then needs a word character
after the pipe), else the boundary right after the letters. -/
def detect2Tail (body : List Char) (nl : Nat) : Bool :=
  let afterL := body.drop nl
  (if afterL.head? = some '|' then wordBoundary (some '|') (afterL.get? 1) else false)
    || wordBoundary (body.get? (nl - 1)) afterL.head?

/-- Anchored matcher for `re.match(r'^\|?([A-Z]{2,4})\|?\b', g)`
(tmdb.py line 49, case-sensitive): returns the captured letters. -/
def matchDetect2 (s : List Char) : Option String :=
  let p := if s.head? = some '|' then 1 else 0
  let body := s.drop p
  upperCapChain body (fun j => detect2Tail body j)

/-- `detect_prefix` (tmdb.py lines 43-51). -/
def detectPrefix (groupTitle : String) : String :=
  if groupTitle = "" then "EN"
  else
    let g := pyStrip groupTitle
    match matchDetect1 g.data with
    | some cap => pyUpper cap
    | none =>
      match matchDetect2 g.data with
      | some cap => pyUpper cap
      | none => "EN"

/-- `_series_key` (tmdb.py lines 109-120). -/
def seriesKeyFn (title : String) : String :=
  let base := stripLeadingPrefix title
  let base := (stripAllSeTokens base).1
  let base := baseNoiseStrip base
  pyLower (pyStrip (squeezeWs base))

/-- `_normalize_series_and_episode` (tmdb.py lines 122-149). -/
def normalizeSeriesAndEpisode (rawTitle : String) :
    String × Option Nat × Option Nat × String :=
  let noPre := stripLeadingPrefix rawTitle
  let r := stripAllSeTokens noPre
  let cleaned := baseNoiseStrip r.1
  let sp := pySplit1 matchSplitSe cleaned.data
  let seriesQ := match sp with | some pr => pyStrip ⟨pr.1⟩ | none => cleaned
  let epName0 := match sp with | some pr => pyStrip ⟨pr.2⟩ | none => ""
  let epName := if epName0 ≠ "" then pyStrip (stripAllSeTokens epName0).1 else epName0
  (pyStrip (squeezeWs seriesQ), r.2.1, r.2.2, epName)

/-- Index of the first occurrence of `://`. -/
def findSchemeSep : List Char → Option Nat
  | ':' :: '/' :: '/' :: _ => some 0
  | _ :: rest => (findSchemeSep rest).map (· + 1)
  | [] => none

/-- Minimal model of `urllib.parse.urlparse` for the URL shapes this
program handles: `scheme://netloc/path` with query and fragment cut
off (the scheme is lower-cased, as `urlparse` does); a string without
`://` parses as a bare path with empty scheme and netloc. -/
def urlparse3 (url : String) : String × String × String :=
  match findSchemeSep url.data with
  | some i =>
    let scheme := pyLower ⟨url.data.take i⟩
    let rest := url.data.drop (i + 3)
    let netloc := rest.takeWhile (fun c => if c = '/' ∨ c = '?' ∨ c = '#' then false else true)
    let after := rest.drop netloc.length
    let path := after.takeWhile (fun c => if c = '?' ∨ c = '#' then false else true)
    (scheme, ⟨netloc⟩, ⟨path⟩)
  | none =>
    ("", "", ⟨url.data.takeWhile (fun c => if c = '?' ∨ c = '#' then false else true)⟩)

/-- `_provider_base` (tmdb.py lines 151-158): scheme + netloc + the
path without its last segment. -/
def providerBase (url : String) : String :=
  let p := urlparse3 url
  let path := p.2.2
  let stripped := pyRstripChars ['/'] (if path = "" then "/" else path)
  let parts := splitCharAll '/' stripped.data
  let basePath := if parts.length > 1 then "/".intercalate parts.dropLast else path
  p.1 ++ "://" ++ p.2.1 ++ basePath

/-- Matcher for `_DASH_SPLIT_RE = \s[-–—]\s` (tmdb.py line 162). -/
def matchDashSplit : Matcher Unit := fun _ s =>
  match s with
  | a :: b :: c :: _ =>
    if isSpacePy a ∧ (b = '-' ∨ b = '–' ∨ b = '—') ∧ isSpacePy c then some (3, ())
    else none
  | _ => none

/-- Python `t.split(ch, 1)[0]`: the text before the first occurrence of
the character (the whole string when absent). -/
def beforeChar (ch : Char) (t : String) : String :=
  ⟨t.data.takeWhile (fun c => if c = ch then false else true)⟩

/-- The guarded append `if c and c not in cands: cands.append(c)` used
by the parenthesis, colon and backoff steps of `_simplify_candidates`. -/
def candStep (cands : List String) (c : String) : List String :=
  if c ≠ "" ∧ ¬ cands.contains c then cands ++ [c] else cands

/-- The backoff seed for one `keep` value: `' '.join(toks[:keep]).strip()`. -/
def backoffSeed (toks : List String) (keep : Nat) : String :=
  pyStrip (" ".intercalate (toks.take keep))

/-- The token-backoff loop of `_simplify_candidates` (tmdb.py lines
196-203): for `keep` from `len(toks)-1` down to 2, append the first
`keep` tokens when non-empty and unseen, breaking once six candidates
exist (the break is checked after the append, as in the source). -/
def backoffLoop (toks : List String) : List Nat → List String → List String
  | [], cands => cands
  | keep :: ks, cands =>
    let cands' := candStep cands (backoffSeed toks keep)
    if 6 ≤ cands'.length then cands' else backoffLoop toks ks cands'

/-- `_simplify_candidates` (tmdb.py lines 164-205) with `max_cands = 6`,
the value at its only call site. -/
def simplifyCandidates (q : String) : List String :=
  let t := pyStrip q
  if t = "" then []
  else
    let cands := [t]
    let cands :=
      match pySplit1 matchDashSplit t.data with
      | some pr =>
        let d := pyStrip ⟨pr.1⟩
        if d ≠ "" then cands ++ [d] else cands
      | none => cands
    let cands := candStep cands (pyStrip (beforeChar '(' t))
    let cands :=
      if t.data.contains ':' then candStep cands (pyStrip (beforeChar ':' t))
      else cands
    let toks := pySplitWs t
    let keeps := (List.range' 2 (toks.length - 2)).reverse
    (backoffLoop toks keeps cands).take 6

/-- Fields of the best-match dict returned by `_search_tv` /
`_search_multi` (tmdb.py lines 311-317 and 349-355).  The HTTP call,
JSON parsing and best-result selection live behind the oracle; the
in-function `or ""` massaging makes `posterPath` a plain string. -/
structure SearchHit where
  tmdbId : Option Int
  mediaType : Option String
  title : Option String
  posterPath : String
  genreIds : List Int
deriving DecidableEq, Repr

/-- One `_search_tv` / `_search_multi` outcome: a dict with an `error`
entry, or the best-match fields. -/
inductive SearchRes where
  | err (msg : String)
  | hit (h : SearchHit)
deriving DecidableEq, Repr

/-- One `for q in cands` search loop of `_try_tmdb` (tmdb.py lines
448-451 / 452-455): the first non-error result, with the count of
requests made. -/
def searchLoop (f : String → SearchRes) : List String → Option SearchHit × Nat
  | [] => (none, 0)
  | q :: qs =>
    match f q with
    | .hit h => (some h, 1)
    | .err _ =>
      let r := searchLoop f qs
      (r.1, r.2 + 1)

/-- `_try_tmdb` (tmdb.py lines 445-456), instrumented with the number
of search requests issued: TV over all candidates first, then multi. -/
def tryTmdbI (tv multi : String → SearchRes) (q : String) : Option SearchHit × Nat :=
  let cands := simplifyCandidates q
  let rTv := searchLoop tv cands
  match rTv.1 with
  | some h => (some h, rTv.2)
  | none =>
    let rMulti := searchLoop multi cands
    (rMulti.1, rTv.2 + rMulti.2)

def tryTmdb (tv multi : String → SearchRes) (q : String) : Option SearchHit :=
  (tryTmdbI tv multi q).1

/-- A playlist entry: the dict shape produced by `m3u.parse` and
mutated by the prober and by `enrich`.  Fields the source reads with
`.get` are `Option`s (absent = `none`); `url` is always present once
an entry exists. -/
structure Item where
  url : String := ""
  title : Option String := none
  rawTitle : Option String := none
  tvgName : Option String := none
  tvgId : Option String := none
  tvgLogo : Option String := none
  groupTitle : Option String := none
  rawGroup : Option String := none
  origTitle : Option String := none
  origPrefix : Option String := none
  origGroup : Option String := none
  displayTitle : Option String := none
  season : Option Nat := none
  episode : Option Nat := none
  status : Option String := none
  lastOk : Option Int := none
  lastChecked : Option Int := none
  probeNote : Option String := none
deriving DecidableEq, Repr

/-- `_clean_spaces` (m3u.py lines 91-92): strip, then collapse
whitespace. -/
def cleanSpaces (s : String) : String :=
  squeezeWs (pyStrip s)

/-- Characters before the first occurrence of `sep` (all of them when
`sep` never occurs). -/
def beforeSubGo (sep : List Char) : List Char → List Char
  | [] => []
  | c :: rest =>
    if sep.isPrefixOf (c :: rest) then [] else c :: beforeSubGo sep rest

/-- Python `head.split(' - ', 1)[0]`: the text before the first
occurrence of the three-character separator. -/
def beforeDashSep (s : String) : String :=
  ⟨beforeSubGo [' ', '-', ' '] s.data⟩

/-- `_series_base_key` (m3u.py lines 94-105): strip the series prefix,
cut at the first ` Sxx Eyy`, cut at ` - `, clean and lower-case. -/
def seriesBaseKey (displayTitle : String) : String :=
  let t := stripLeadingPrefix displayTitle
  let head := match pySplit1 matchSplitSe t.data with
    | some pr => (⟨pr.1⟩ : String)
    | none => t
  pyLower (cleanSpaces (beforeDashSep head))

/-- The sort key type of `_sort_key`: (group, series key, season,
episode, cleaned display title), ordered lexicographically as Python
orders tuples. -/
abbrev SortKey := String ×ₗ String ×ₗ Nat ×ₗ Nat ×ₗ String

/-- `_sort_key` (m3u.py lines 107-112). -/
def sortKey (it : Item) : SortKey :=
  let grp := pyLower (pyOrStr it.groupTitle "~")
  let dt := firstNonEmptyStr [it.displayTitle, it.tvgName, it.title]
  let sk := seriesBaseKey dt
  let s := match it.season with | some n => n | none => 0
  let e := match it.episode with | some n => n | none => 0
  (grp, sk, s, e, cleanSpaces dt)

/-- `String.lt` through the character list (kernel-computable). -/
def decStrLt (a b : String) : Decidable (a < b) :=
  decidable_of_iff (a.toList < b.toList) String.lt_iff_toList_lt.symm

/-- `String.le` through the character list (kernel-computable). -/
def decStrLe (a b : String) : Decidable (a ≤ b) :=
  decidable_of_iff (a.toList ≤ b.toList) String.le_iff_toList_le.symm

/-- Lexicographic `≤` through `Prod.lex_def` (kernel-computable given
computable component orders). -/
def decLexLe {α β : Type} [LT α] [DecidableEq α] [LE β]
    (dlt : (a b : α) → Decidable (a < b)) (dle : (a b : β) → Decidable (a ≤ b))
    (p q : α ×ₗ β) : Decidable (p ≤ q) :=
  haveI : DecidableRel (fun a b : α => a < b) := dlt
  haveI : DecidableRel (fun a b : β => a ≤ b) := dle
  decidable_of_iff _ (Prod.Lex.le_iff (ofLex p) (ofLex q)).symm

/-- The tuple comparison on sort keys, decided by structural
computation (the library's string order decides via an iterator
recursion the kernel cannot unfold). -/
def decSortKeyLe : (a b : SortKey) → Decidable (a ≤ b) :=
  decLexLe decStrLt (decLexLe decStrLt (decLexLe (fun a b => Nat.decLt a b)
    (decLexLe (fun a b => Nat.decLt a b) decStrLe)))

instance (priority := 2000) decRelSortKeyLe :
    DecidableRel (fun a b : Item => sortKey a ≤ sortKey b) :=
  fun a b => decSortKeyLe (sortKey a) (sortKey b)

/-- `sorted(items, key=_sort_key)`: Python's sort is stable, and any
stable sort by the same total preorder on keys produces the same list,
so insertion sort (which keeps the earlier of two key-equal entries
first) models it exactly. -/
def sortItems (items : List Item) : List Item :=
  items.insertionSort (fun a b => sortKey a ≤ sortKey b)

/-- The `#EXTINF`+url line pair for one entry (m3u.py lines 125-140),
with the running CUID counter. -/
def writeEntryLines (cuid : Nat) (it : Item) : List String :=
  let name := firstNonEmptyStr [it.displayTitle, it.tvgName, it.title]
  let logo := pyOrStr it.tvgLogo ""
  let group := pyOrStr it.groupTitle ""
  let url := it.url
  let ext := "#EXTINF:0 CUID=\"" ++ toString cuid ++ "\" tvg-name=\"" ++ name ++ "\""
  let ext := if logo ≠ "" then ext ++ " tvg-logo=\"" ++ logo ++ "\"" else ext
  let ext := if group ≠ "" then ext ++ " group-title=\"" ++ group ++ "\"" else ext
  [ext ++ "," ++ name, url]

def writeBody (cuid : Nat) : List Item → List String
  | [] => []
  | it :: rest => writeEntryLines cuid it ++ writeBody (cuid + 1) rest

/-- `m3u.write` (m3u.py lines 114-143) as the text written to the file:
sort by `_sort_key`, emit `#EXTM3U` and one EXTINF/url pair per entry,
joined with newlines plus a trailing newline.  (The directory creation
and file I/O around it carry no logic.) -/
def writeOut (items : List Item) : String :=
  "\n".intercalate ("#EXTM3U" :: writeBody 1 (sortItems items)) ++ "\n"

/-- Outcome of one external `ffprobe` run, as `subprocess.run` reports
it to `_probe_one`: a completed process (exit code, captured stdout —
discarded by the source via `stdout=DEVNULL` — and captured stderr), a
timeout, or another raised exception with its message. -/
inductive ProcOutcome where
  | completed (exitCode : Nat) (stdout : String) (stderr : String)
  | timedOut
  | raised (msg : String)
deriving DecidableEq, Repr

/-- `_probe_one` (probe.py lines 23-68), given the clock value `now`
and the process outcome for the item's URL.  `check=True` turns a
nonzero exit into `CalledProcessError`; the stream-inspection output on
stdout is discarded unread. -/
def probeOne (now : Int) (it : Item) (out : ProcOutcome) : Item :=
  match out with
  | .completed 0 _ _ =>
    { it with status := some "OK", lastOk := some now, lastChecked := some now,
              probeNote := some "" }
  | .completed _ _ stderr =>
    let msg := pyStrip stderr
    { it with status := some "FAIL", lastChecked := some now,
              probeNote := some (if msg = "" then "ffprobe error" else msg) }
  | .timedOut =>
    { it with status := some "FAIL", lastChecked := some now,
              probeNote := some "Timeout" }
  | .raised msg =>
    { it with status := some "FAIL", lastChecked := some now,
              probeNote := some msg }

/-- `it.get("title") or it.get("tvg-name") or it.get("orig_title") or ""`
(tmdb.py lines 397 and 539). -/
def rawTitleOf (it : Item) : String :=
  firstNonEmptyStr [it.title, it.tvgName, it.origTitle]

/-- Per-cluster data held in `occ_index` (tmdb.py lines 405-409): the
first member to produce a key fixes `prefix`, `provider_base`,
`series_key` and `sample_q`; every member appends an
(index, season, episode, episode-name) tuple. -/
structure OccMeta where
  pfx : String
  providerBase : String
  seriesKey : String
  sampleQ : String
  indices : List (Nat × Option Nat × Option Nat × String)
deriving DecidableEq, Repr

/-- The parts of one item's occurrence data (tmdb.py lines 396-403):
prefix, provider base, series key, sample query, season, episode,
episode name. -/
def occPartsOfItem (it : Item) :
    String × String × String × String × Option Nat × Option Nat × String :=
  let n := normalizeSeriesAndEpisode (rawTitleOf it)
  let sk := pyLower (pyStrip (squeezeWs n.1))
  let pf := pyUpper (pyOrStr it.origPrefix
    (detectPrefix (pyOrStr it.origGroup (pyOrStr it.groupTitle ""))))
  (pf, providerBase it.url, sk, n.1, n.2.1, n.2.2.1, n.2.2.2)

/-- `occ_key = f"series:{lang}:{pf}:{base}:{sk}"` (tmdb.py line 403). -/
def occKeyOfItem (lang : String) (it : Item) : String :=
  let p := occPartsOfItem it
  "series:" ++ lang ++ ":" ++ p.1 ++ ":" ++ p.2.1 ++ ":" ++ p.2.2.1

/-- Exact-key lookup in the insertion-ordered association list that
models the Python dict `occ_index`. -/
def occLookup : List (String × OccMeta) → String → Option OccMeta
  | [], _ => none
  | kv :: rest, k => if kv.1 = k then some kv.2 else occLookup rest k

/-- `occ_index.setdefault(...)` plus the member append (tmdb.py lines
405-409). -/
def occUpsert (acc : List (String × OccMeta)) (key : String) (meta : OccMeta)
    (tup : Nat × Option Nat × Option Nat × String) : List (String × OccMeta) :=
  if (occLookup acc key).isSome then
    acc.map (fun kv =>
      if kv.1 = key then (kv.1, { kv.2 with indices := kv.2.indices ++ [tup] }) else kv)
  else acc ++ [(key, { meta with indices := [tup] })]

/-- One step of the occurrence-building loop, for the enumerated item
`p = (index, item)`. -/
def buildOccStep (lang : String) (acc : List (String × OccMeta)) (p : Nat × Item) :
    List (String × OccMeta) :=
  let d := occPartsOfItem p.2
  occUpsert acc (occKeyOfItem lang p.2)
    { pfx := d.1, providerBase := d.2.1, seriesKey := d.2.2.1,
      sampleQ := d.2.2.2.1, indices := [] }
    (p.1, d.2.2.2.2.1, d.2.2.2.2.2.1, d.2.2.2.2.2.2)

/-- The occurrence-building loop of `enrich` (tmdb.py lines 394-409). -/
def buildOccIndex (lang : String) (items : List Item) : List (String × OccMeta) :=
  items.enum.foldl (buildOccStep lang) []

/-- One row of the `tmdb_series_occ` cache table (tmdb.py lines
213-228).  `created_at` is a wall-clock timestamp that no decision in
`enrich` reads, and is omitted. -/
structure OccRow where
  tmdbId : Option Int := none
  mediaType : Option String := none
  title : Option String := none
  posterPath : Option String := none
  lang : Option String := none
  pfx : Option String := none
  providerBase : Option String := none
  seriesKey : Option String := none
  primaryGenre : Option String := none
  lastError : Option String := none
deriving DecidableEq, Repr

/-- The cache table keyed by occurrence key. -/
abbrev Cache := String → Option OccRow

def cacheUpsert (c : Cache) (k : String) (r : OccRow) : Cache :=
  fun k' => if k' = k then some r else c k'

/-- The usable-positive test `row[1] in ("tv","movie") and row[0]`
(tmdb.py lines 434 and 526): the media type must be tv or movie and
the stored id truthy (non-null and non-zero). -/
def rowPositive (r : OccRow) : Bool :=
  (r.mediaType == some "tv" || r.mediaType == some "movie")
    && (match r.tmdbId with | some n => n != 0 | none => false)

def cachedPositive (c : Cache) (k : String) : Bool :=
  match c k with
  | some r => rowPositive r
  | none => false

/-- The `INSERT OR IGNORE` placeholder row written while saving members
(tmdb.py lines 415-419): all lookup columns null, bookkeeping columns
filled. -/
def placeholderRow (lang : String) (meta : OccMeta) : OccRow :=
  { lang := some lang, pfx := some meta.pfx, providerBase := some meta.providerBase,
    seriesKey := some meta.seriesKey }

/-- Cache state after the member-saving transaction (tmdb.py lines
411-427): `INSERT OR IGNORE` creates a placeholder for each occurrence
key not yet present.  The `tmdb_series_members` writes are never read
back inside `enrich` and are not modelled. -/
def cacheAfterSave (lang : String) (occIndex : List (String × OccMeta))
    (cache : Cache) : Cache :=
  fun k =>
    match occLookup occIndex k with
    | some meta => (cache k).orElse (fun _ => some (placeholderRow lang meta))
    | none => cache k

/-- The `to_fetch` partition (tmdb.py lines 429-441): occurrence keys —
kept with their cluster data — whose row after the save is not a
usable positive (the load at lines 430-439 keeps only positives). -/
def pairsToFetch (occIndex : List (String × OccMeta)) (c1 : Cache) :
    List (String × OccMeta) :=
  occIndex.filter (fun kv => !(cachedPositive c1 kv.1))

/-- `" ".join([w.capitalize() if len(w) > 2 else w for w in s.split()])`
(tmdb.py lines 463 and 466). -/
def prettyWords (s : String) : String :=
  " ".intercalate ((pySplitWs s).map (fun w => if 2 < w.length then pyCapitalize w else w))

/-- `for gid in ids: if gid in gmap: genre_name = gmap[gid]; break`
(tmdb.py lines 480-485). -/
def firstGenre (gmap : Int → Option String) : List Int → Option String
  | [] => none
  | g :: gs => match gmap g with | some n => some n | none => firstGenre gmap gs

/-- `_fetch_detail_genre` (tmdb.py lines 357-371): the falsy-id and
media-type guard is source logic; the HTTP fetch and first-genre
extraction live behind `detailG`. -/
def fetchDetailGenre (detailG : String → Int → Option String)
    (mediaType : Option String) (tmdbId : Option Int) : Option String :=
  match tmdbId, mediaType with
  | some n, some mt => if n ≠ 0 ∧ (mt = "movie" ∨ mt = "tv") then detailG mt n else none
  | _, _ => none

/-- The lookup worker (tmdb.py lines 459-501) with the HTTP transport
behind the oracles: returns the row to persist and the number of
search requests issued.  A miss returns `{negative: 1, last_error:
"no results"}`, which the `executemany` at lines 511-518 stores as an
all-null row with only `last_error` set (the `v.get(...)` of every
absent key is `None`).  The `occ_key.split(":", 4)` mirrors the source
— for an `http://…` provider base it cuts at the colon inside the URL. -/
def workerRowI (tv multi : String → SearchRes) (movieG tvG : Int → Option String)
    (detailG : String → Int → Option String) (occKey : String) (meta : OccMeta) :
    OccRow × Nat :=
  let parts := splitCharLim ':' 4 occKey.data
  let langP := parts.getD 1 ""
  let pfP := parts.getD 2 ""
  let baseP := parts.getD 3 ""
  let skPart := parts.getD 4 ""
  let skPretty := prettyWords skPart
  let firstQ := if meta.sampleQ ≠ "" then meta.sampleQ else skPretty
  let firstQ := prettyWords (pyStrip (squeezeWs firstQ))
  let r1 := tryTmdbI tv multi firstQ
  let res : Option SearchHit × Nat :=
    match r1.1 with
    | some h => (some h, r1.2)
    | none =>
      let r2 := tryTmdbI tv multi skPretty
      (r2.1, r1.2 + r2.2)
  match res.1 with
  | none => ({ lastError := some "no results" }, res.2)
  | some h =>
    let title := pyOrStr h.title firstQ
    let g0 : Option String :=
      if h.mediaType = some "tv" then firstGenre tvG h.genreIds
      else if h.mediaType = some "movie" then firstGenre movieG h.genreIds
      else none
    let gname := if pyOrStr g0 "" = "" then fetchDetailGenre detailG h.mediaType h.tmdbId
      else g0
    ({ tmdbId := h.tmdbId, mediaType := h.mediaType, title := some title,
       posterPath := some h.posterPath, lang := some langP, pfx := some pfP,
       providerBase := some baseP, seriesKey := some skPart,
       primaryGenre := gname, lastError := none }, res.2)

/-- Fetch phase (tmdb.py lines 458-519): run the worker for every
to-fetch pair and `INSERT OR REPLACE` each returned row.  The
`as_completed` collection order cannot change the final cache state
(the keys are distinct), so the fold follows submission order; the
request count is the total over workers. -/
def fetchPhase (tv multi : String → SearchRes) (movieG tvG : Int → Option String)
    (detailG : String → Int → Option String)
    (prs : List (String × OccMeta)) (c1 : Cache) : Cache × Nat :=
  prs.foldl
    (fun st kv =>
      let wr := workerRowI tv multi movieG tvG detailG kv.1 kv.2
      (cacheUpsert st.1 kv.1 wr.1, st.2 + wr.2))
    (c1, 0)

/-- The usable-row resolution `all_occ` (tmdb.py lines 521-531). -/
def allOccOf (c2 : Cache) (k : String) : Option OccRow :=
  match c2 k with
  | some r => if rowPositive r then some r else none
  | none => none

/-- `poster = occ_row.get("poster_path") or ""` over the optional row
(tmdb.py lines 544, 551). -/
def posterOfRow : Option OccRow → String
  | some r => pyOrStr r.posterPath ""
  | none => ""

/-- The per-member series title (tmdb.py lines 546-551): the re-cleaned
TMDB title on a resolved row (falling back to the member's own parsed
query when the stored title is null or empty), else the member's own
parsed query. -/
def seriesTitleFor (occRow : Option OccRow) (seriesQuery : String) : String :=
  match occRow with
  | some r => baseNoiseStrip (stripLeadingPrefix (pyOrStr r.title seriesQuery))
  | none => seriesQuery

/-- Python `f"{n:02d}"` for the parsed 0-99 values. -/
def pad2 (n : Nat) : String :=
  if n < 10 then "0" ++ toString n else toString n

/-- `f" S{s:02d} E{e:02d}"` when both season and episode are present
(tmdb.py line 555). -/
def sePartOf : Option Nat → Option Nat → String
  | some s, some e => " S" ++ pad2 s ++ " E" ++ pad2 e
  | _, _ => ""

/-- The display-title pieces of lines 554-557: the base
`"{pf} - {series title}"`, the season/episode part, and the episode
tail. -/
def displayPartsFor (occRow : Option OccRow) (pf seriesQuery : String)
    (s e : Option Nat) (epName : String) : String × String × String :=
  (pf ++ " - " ++ seriesTitleFor occRow seriesQuery, sePartOf s e,
   if epName ≠ "" then " " ++ epName else "")

/-- The group-title overwrite (tmdb.py lines 567-572). -/
def groupFor (occRow : Option OccRow) (pf : String) : String :=
  match occRow with
  | some r =>
    if r.mediaType = some "movie" ∨ r.mediaType = some "tv" then
      "|" ++ pf ++ "| - " ++ pyOrStr r.primaryGenre "Uncategorized"
    else "|" ++ pf ++ "| - Uncategorized"
  | none => "|" ++ pf ++ "| - Uncategorized"

/-- The apply loop for one member (tmdb.py lines 533-572).  The source
iterates the clusters and mutates each member index in place; each
playlist index occurs in exactly one member tuple (one tuple was
appended per item when the clusters were built), and a member's
season/episode/episode-name values are exactly what
`_normalize_series_and_episode` returns for that item's raw title, so
the loop is this per-item map.  The `none` branch is unreachable for
an index built from the same item list. -/
def transformItem (occIndex : List (String × OccMeta)) (allOcc : String → Option OccRow)
    (lang : String) (it : Item) : Item :=
  let key := occKeyOfItem lang it
  match occLookup occIndex key with
  | none => it
  | some meta =>
    let n := normalizeSeriesAndEpisode (rawTitleOf it)
    let occRow := allOcc key
    let parts := displayPartsFor occRow meta.pfx n.1 n.2.1 n.2.2.1 n.2.2.2
    let display := pyStrip (parts.1 ++ parts.2.1 ++ parts.2.2)
    let poster := posterOfRow occRow
    { it with
        displayTitle := some display, title := some display, tvgName := some display,
        season := n.2.1, episode := n.2.2.1,
        tvgLogo := if poster ≠ "" then
            some ("https://image.tmdb.org/t/p/w154" ++ poster)
          else it.tvgLogo,
        groupTitle := some (groupFor occRow meta.pfx) }

/-- The TMDB configuration slice `enrich` reads: the API key
(`cfg["TMDB"]["API_KEY"]`, possibly null in the merged config) and the
language.  `PARALLELISM` and `CACHE_DB_PATH` steer only threading and
I/O, `DEBUG_STATS` only printing. -/
structure TmdbCfg where
  apiKey : Option String
  language : String
deriving DecidableEq, Repr

/-- The fetch phase of one `enrich` run over the saved cache state:
the final cache and the number of search requests. -/
def enrichFetch (tv multi : String → SearchRes) (movieG tvG : Int → Option String)
    (detailG : String → Int → Option String)
    (items : List Item) (cfg : TmdbCfg) (cache : Cache) : Cache × Nat :=
  let occIndex := buildOccIndex cfg.language items
  let c1 := cacheAfterSave cfg.language occIndex cache
  fetchPhase tv multi movieG tvG detailG (pairsToFetch occIndex c1) c1

/-- The usable-row view of the cache after the fetch phase (the
`all_occ` dict of tmdb.py lines 521-531 as a function). -/
def enrichAllOccF (tv multi : String → SearchRes) (movieG tvG : Int → Option String)
    (detailG : String → Int → Option String)
    (items : List Item) (cfg : TmdbCfg) (cache : Cache) : String → Option OccRow :=
  allOccOf (enrichFetch tv multi movieG tvG detailG items cfg cache).1

/-- `enrich` (tmdb.py lines 375-583), with the cache table as explicit
state and the network behind oracles (`tv` / `multi` the search
endpoints inside `_search_tv` / `_search_multi`; `movieG` / `tvG` the
genre taxonomy maps `_get_genres` returns; `detailG` behind
`_fetch_detail_genre`).  Returns the mutated items, the final cache
state, and the total number of search requests issued. -/
def enrichI (tv multi : String → SearchRes) (movieG tvG : Int → Option String)
    (detailG : String → Int → Option String)
    (items : List Item) (cfg : TmdbCfg) (cache : Cache) : List Item × Cache × Nat :=
  if items = [] then (items, cache, 0)
  else if pyStrip (pyOrStr cfg.apiKey "") = "" then (items, cache, 0)
  else
    (items.map (transformItem (buildOccIndex cfg.language items)
        (enrichAllOccF tv multi movieG tvG detailG items cfg cache) cfg.language),
      (enrichFetch tv multi movieG tvG detailG items cfg cache).1,
      (enrichFetch tv multi movieG tvG detailG items cfg cache).2)

/-- The occurrence keys `enrich` sends to the lookup workers on a run. -/
def enrichToFetchKeys (items : List Item) (cfg : TmdbCfg) (cache : Cache) : List String :=
  if items = [] then []
  else if pyStrip (pyOrStr cfg.apiKey "") = "" then []
  else
    let occIndex := buildOccIndex cfg.language items
    (pairsToFetch occIndex (cacheAfterSave cfg.language occIndex cache)).map Prod.fst

/-- Search requests issued for one occurrence key during a run of
`enrich`: zero unless the key reaches the to-fetch partition, in which
case its worker's count. -/
def enrichSearchCallsFor (tv multi : String → SearchRes) (movieG tvG : Int → Option String)
    (detailG : String → Int → Option String)
    (items : List Item) (cfg : TmdbCfg) (cache : Cache) (key : String) : Nat :=
  if items = [] then 0
  else if pyStrip (pyOrStr cfg.apiKey "") = "" then 0
  else
    let occIndex := buildOccIndex cfg.language items
    let c1 := cacheAfterSave cfg.language occIndex cache
    match (pairsToFetch occIndex c1).find? (fun kv => kv.1 == key) with
    | some kv => (workerRowI tv multi movieG tvG detailG kv.1 kv.2).2
    | none => 0

/-- The resolved row the apply loop uses for an item, recomputed from a
full-run context (the occ lookup, fetch phase, then positive filter). -/
def enrichRowFor (tv multi : String → SearchRes) (movieG tvG : Int → Option String)
    (detailG : String → Int → Option String)
    (items : List Item) (cfg : TmdbCfg) (cache : Cache) (it : Item) : Option OccRow :=
  if items = [] then none
  else if pyStrip (pyOrStr cfg.apiKey "") = "" then none
  else
    match occLookup (buildOccIndex cfg.language items) (occKeyOfItem cfg.language it) with
    | some _ =>
      enrichAllOccF tv multi movieG tvG detailG items cfg cache (occKeyOfItem cfg.language it)
    | none => none

/-- The display-title base (`"{pf} - {series title}"`) the apply loop
assembles for an item in a full-run context. -/
def enrichBaseFor (tv multi : String → SearchRes) (movieG tvG : Int → Option String)
    (detailG : String → Int → Option String)
    (items : List Item) (cfg : TmdbCfg) (cache : Cache) (it : Item) : String :=
  if items = [] then ""
  else if pyStrip (pyOrStr cfg.apiKey "") = "" then ""
  else
    match occLookup (buildOccIndex cfg.language items) (occKeyOfItem cfg.language it) with
    | some meta =>
      (displayPartsFor
        (enrichAllOccF tv multi movieG tvG detailG items cfg cache
          (occKeyOfItem cfg.language it))
        meta.pfx (normalizeSeriesAndEpisode (rawTitleOf it)).1
        (normalizeSeriesAndEpisode (rawTitleOf it)).2.1
        (normalizeSeriesAndEpisode (rawTitleOf it)).2.2.1
        (normalizeSeriesAndEpisode (rawTitleOf it)).2.2.2).1
    | none => ""

/-- The cluster poster string the apply loop uses for an item in a
full-run context (empty when the cluster is unresolved or has no
poster). -/
def enrichPosterFor (tv multi : String → SearchRes) (movieG tvG : Int → Option String)
    (detailG : String → Int → Option String)
    (items : List Item) (cfg : TmdbCfg) (cache : Cache) (it : Item) : String :=
  match enrichRowFor tv multi movieG tvG detailG items cfg cache it with
  | some r => pyOrStr r.posterPath ""
  | none => ""

/-- The group title the apply loop assigns to an item in a full-run
context (tmdb.py lines 567-572, through the cluster's prefix and
resolved row). -/
def enrichGroupFor (tv multi : String → SearchRes) (movieG tvG : Int → Option String)
    (detailG : String → Int → Option String)
    (items : List Item) (cfg : TmdbCfg) (cache : Cache) (it : Item) : String :=
  if items = [] then ""
  else if pyStrip (pyOrStr cfg.apiKey "") = "" then ""
  else
    match occLookup (buildOccIndex cfg.language items) (occKeyOfItem cfg.language it) with
    | some meta =>
      groupFor
        (enrichAllOccF tv multi movieG tvG detailG items cfg cache
          (occKeyOfItem cfg.language it))
        meta.pfx
    | none => ""

/-! ### Specification-side definitions

Definitions below follow the claims' wording (not the source); each
claim's theorem compares the source-translated functions above against
these. -/

/-- Claim C4's stated success condition: the inspection process exits
cleanly AND reports a non-empty codec name for a video stream (the
codec text arrives on the process's stdout, which `_probe_one`
discards). -/
def claimedProbeOk : ProcOutcome → Prop
  | .completed c out _ => c = 0 ∧ out ≠ ""
  | _ => False

/-- The capture of the first (leftmost) S/E token in the padded text:
the claim-side description of the pair `_strip_all_se_tokens`
returns. -/
def firstSePair (text : String) : Option (Nat × Nat) :=
  if text = "" then none
  else
    let s := ' ' :: text.data ++ [' ']
    (findFirstGo matchSeToken s.length none s).map (fun r => r.2.1)

/-- The first non-error result in a sequence of search responses. -/
def firstHit : List SearchRes → Option SearchHit
  | [] => none
  | .hit h :: _ => some h
  | .err _ :: rest => firstHit rest

/-- One step of first-seen deduplication. -/
def dedupStep (acc : List String) (c : String) : List String :=
  if acc.contains c then acc else acc ++ [c]

/-- First-seen deduplication: keep the first occurrence of each string,
drop later duplicates. -/
def dedupKeepFirst (xs : List String) : List String :=
  xs.foldl dedupStep []

/-- Claim C7's candidate seeds in the stated order: the original
cleaned title, the text before the first (space-surrounded) dash, the
text before the first parenthesis, the text before the first colon,
then the token-prefixes from `len-1` down to 2 tokens; empty seeds
dropped. -/
def candidateSeedsRaw (t : String) : List String :=
  [t] ++
    (match pySplit1 matchDashSplit t.data with
     | some pr => [pyStrip ⟨pr.1⟩]
     | none => []) ++
    [pyStrip (beforeChar '(' t)] ++
    (if t.data.contains ':' then [pyStrip (beforeChar ':' t)] else []) ++
    ((List.range' 2 ((pySplitWs t).length - 2)).reverse.map
      (backoffSeed (pySplitWs t)))

def candidateSeeds (t : String) : List String :=
  (candidateSeedsRaw t).filter (fun c => c ≠ "")

/-- Claim C7's description of the candidate list: the seeds in order,
first-seen deduplicated, capped at six. -/
def specCandidates (q : String) : List String :=
  let t := pyStrip q
  if t = "" then [] else (dedupKeepFirst (candidateSeeds t)).take 6

/-! ### Concrete fixtures for witnesses and counterexamples -/

/-- Claim C1's first entry: `{rawTitle: "EN - Breaking Bad S01 E01
Pilot", url: "http://h/path/a.ts"}`. -/
def bbItem1 : Item :=
  { url := "http://h/path/a.ts", title := some "EN - Breaking Bad S01 E01 Pilot",
    groupTitle := some "" }

/-- Claim C1's second entry: `{rawTitle: "EN - Breaking Bad 1080p S01
E05 Gray Matter", url: "http://h/path/b.ts"}`. -/
def bbItem2 : Item :=
  { url := "http://h/path/b.ts",
    title := some "EN - Breaking Bad 1080p S01 E05 Gray Matter", groupTitle := some "" }

/-- Case-variant decorations of one series (no episode tails), same
provider base: these two do share a cluster key. -/
def caseItem1 : Item :=
  { url := "http://h/path/a.ts", title := some "EN - Breaking Bad S01 E01",
    groupTitle := some "" }

def caseItem2 : Item :=
  { url := "http://h/path/b.ts", title := some "EN - BREAKING BAD S01 E05",
    groupTitle := some "" }

def cfgEn : TmdbCfg := { apiKey := some "k", language := "en-US" }

/-- A search oracle that always reports "no results". -/
def errO : String → SearchRes := fun _ => .err "no results"

/-- A TV-search oracle that resolves the query "Breaking Bad". -/
def hitTvO : String → SearchRes := fun q =>
  if q = "Breaking Bad" then
    .hit { tmdbId := some 1396, mediaType := some "tv", title := some "Breaking Bad",
           posterPath := "/p.jpg", genreIds := [18] }
  else .err "no results"

def noGenre : Int → Option String := fun _ => none

def dramaGenre : Int → Option String := fun g => if g = 18 then some "Drama" else none

def noDetail : String → Int → Option String := fun _ _ => none

def emptyCache : Cache := fun _ => none

/-- The negative record `enrich` persists for a missed cluster: all
columns null except `last_error`. -/
def negRow : OccRow := { lastError := some "no results" }

/-- A positive record as a successful run persists it (the
`provider_base`/`series_key` columns carry the `split(":", 4)`
artifacts, as the source stores them). -/
def posRow : OccRow :=
  { tmdbId := some 1396, mediaType := some "tv", title := some "Breaking Bad",
    posterPath := some "/p.jpg", lang := some "en-US", pfx := some "EN",
    providerBase := some "http", seriesKey := some "//h/path:breaking bad",
    primaryGenre := some "Drama" }

/-- Two write entries with identical sort keys and different URLs. -/
def tieItem1 : Item := { url := "http://a", displayTitle := some "EN - A", groupTitle := some "G" }

def tieItem2 : Item := { url := "http://b", displayTitle := some "EN - A", groupTitle := some "G" }

/-- Two write entries with distinct sort keys. -/
def distItem1 : Item :=
  { url := "http://a", displayTitle := some "EN - A S01 E01", groupTitle := some "G1",
    season := some 1, episode := some 1 }

def distItem2 : Item :=
  { url := "http://b", displayTitle := some "EN - B S01 E02", groupTitle := some "G2",
    season := some 1, episode := some 2 }

/-! ## Helper lemmas -/

theorem takeWhile_length_le (p : Char → Bool) :
    ∀ l : List Char, (l.takeWhile p).length ≤ l.length := by
  intro l
  induction l with
  | nil => simp
  | cons c rest ih =>
    by_cases h : p c
    · simpa [List.takeWhile, h] using ih
    · simp [List.takeWhile, h]

theorem take_all_of_le_takeWhile (p : Char → Bool) :
    ∀ (l : List Char) (n : Nat), n ≤ (l.takeWhile p).length → (l.take n).all p = true := by
  intro l
  induction l with
  | nil =>
    intro n h
    simp [List.takeWhile] at h
    simp [h]
  | cons c rest ih =>
    intro n h
    by_cases hc : p c
    · cases n with
      | zero => simp
      | succ m =>
        simp only [List.takeWhile, hc, List.length_cons, Nat.succ_le_succ_iff] at h
        simp [List.all_cons, hc, ih m h]
    · simp [List.takeWhile, hc] at h
      simp [h]

theorem upper_not_lower {c : Char} (h : isUpperPy c = true) : isLowerPy c = false := by
  simp only [isUpperPy, Bool.and_eq_true, decide_eq_true_eq] at h
  have hZ : ¬ ('a' ≤ c) := fun hc => absurd (hc.trans h.2) (by decide)
  simp [isLowerPy, hZ]

theorem toUpperPy_of_upper {c : Char} (h : isUpperPy c = true) : toUpperPy c = c := by
  simp [toUpperPy, upper_not_lower h]

/-! ## Claim C1 -/

/-- Claim C1 (code bug): the claim's two entries — same prefix `EN`,
same provider base `http://h/path`, differently-decorated forms of
"Breaking Bad" — are assigned DIFFERENT cluster keys by the derivation
`enrich` uses.  `_normalize_series_and_episode` removes every S/E
token (line 130) before it tries to split on one (line 137) to
separate the episode-name tail, so on such titles the split never
fires, the parsed `ep_name` is always empty, and the provider tail
stays inside the series key — contradicting the function's own
docstring ("ep_name: tail after series + S/E") and the module's
display recipe "PREFIX - Series Sxx Eyy EpisodeName". -/
theorem c1_cluster_keys_differ :
    occKeyOfItem "en-US" bbItem1 ≠ occKeyOfItem "en-US" bbItem2 ∧
    occKeyOfItem "en-US" bbItem1 = "series:en-US:EN:http://h/path:breaking bad pilot" ∧
    occKeyOfItem "en-US" bbItem2 =
      "series:en-US:EN:http://h/path:breaking bad gray matter" ∧
    (normalizeSeriesAndEpisode "EN - Breaking Bad S01 E01 Pilot").2.2.2 = "" := by
  refine ⟨?_, ?_, ?_, ?_⟩ <;> decide

/-! ## Claim C4 -/

/-- Claim C4 counterexample: the claim's biconditional — OK exactly
when the process exits cleanly AND reports a non-empty codec name —
fails at a clean exit with empty inspection output (e.g. a stream with
no video stream: ffprobe selecting `v:0` exits 0 and prints nothing):
`_probe_one` discards stdout (`stdout=DEVNULL`) and reports OK. -/
theorem c4_probe_cex :
    ¬ (∀ (now : Int) (it : Item) (o : ProcOutcome),
        (probeOne now it o).status = some "OK" ↔ claimedProbeOk o) := by
  intro h
  have h2 := (h 0 {} (.completed 0 "" "")).mp (by decide)
  exact h2.2 rfl

/-- Claim C4 amended: the probe reports OK exactly when the external
process exits cleanly (code 0) within the timeout — the stream output
is discarded unread, so no codec or video-stream condition is checked;
a nonzero exit yields FAIL with the stripped stderr as note (or
"ffprobe error" когда empty), never an empty note; a timeout yields
FAIL with the literal note "Timeout". -/
theorem c4_probe_amended :
    (∀ (now : Int) (it : Item) (out err : String),
      probeOne now it (.completed 0 out err) =
        { it with status := some "OK", lastOk := some now, lastChecked := some now,
                  probeNote := some "" }) ∧
    (∀ (now : Int) (it : Item) (c : Nat) (out err : String), c ≠ 0 →
      (probeOne now it (.completed c out err)).status = some "FAIL" ∧
      (probeOne now it (.completed c out err)).probeNote =
        some (if pyStrip err = "" then "ffprobe error" else pyStrip err) ∧
      (probeOne now it (.completed c out err)).probeNote ≠ some "") ∧
    (∀ (now : Int) (it : Item),
      (probeOne now it .timedOut).status = some "FAIL" ∧
      (probeOne now it .timedOut).probeNote = some "Timeout") ∧
    (∀ (now : Int) (it : Item) (o : ProcOutcome),
      (probeOne now it o).status = some "OK" ↔
        ∃ out err, o = .completed 0 out err) := by
  refine ⟨fun now it out err => rfl, ?_, fun now it => ⟨rfl, rfl⟩, ?_⟩
  · intro now it c out err hc
    cases c with
    | zero => exact absurd rfl hc
    | succ n =>
      refine ⟨rfl, rfl, ?_⟩
      by_cases hs : pyStrip err = ""
      · simp [probeOne, hs]
      · simp [probeOne, hs]
  · intro now it o
    cases o with
    | completed c out err =>
      cases c with
      | zero => exact ⟨fun _ => ⟨out, err, rfl⟩, fun _ => rfl⟩
      | succ n =>
        constructor
        · intro h
          exact absurd h (by simp [probeOne])
        · rintro ⟨o', e', h⟩
          exact absurd h (by simp)
    | timedOut =>
      constructor
      · intro h
        exact absurd h (by simp [probeOne])
      · rintro ⟨o', e', h⟩
        exact absurd h (by simp)
    | raised msg =>
      constructor
      · intro h
        exact absurd h (by simp [probeOne])
      · rintro ⟨o', e', h⟩
        exact absurd h (by simp)

/-- Witness for the amended C4 theorem at a concrete nonzero exit. -/
theorem c4_probe_amended_witness :
    (probeOne 7 {} (.completed 1 "" " boom ")).status = some "FAIL" ∧
    (probeOne 7 {} (.completed 1 "" " boom ")).probeNote = some "boom" := by
  have h := c4_probe_amended.2.1 7 {} 1 "" " boom " (by decide)
  refine ⟨h.1, ?_⟩
  rw [h.2.1]
  decide

/-! ## Claim C5 -/

/-- Claim C5 counterexample: matching is not case-insensitive — the
lower-case code "de" followed by the dash separator is not recognized
(the claim mandates "DE"); and a leading code with NO dash/pipe
separator is still returned through the source's second pattern
`^\|?([A-Z]{2,4})\|?\b` (the claim mandates the default "EN"). -/
theorem c5_detect_cex :
    detectPrefix "de - Show" = "EN" ∧ detectPrefix "ABCD Show" = "ABCD" := by
  exact ⟨by decide, by decide⟩

theorem map_id_of_all {f : Char → Char} {p : Char → Bool}
    (hf : ∀ c, p c = true → f c = c) :
    ∀ l : List Char, l.all p = true → l.map f = l := by
  intro l
  induction l with
  | nil => intro _; rfl
  | cons c rest ih =>
    intro h
    simp only [List.all_cons, Bool.and_eq_true] at h
    simp [hf c h.1, ih h.2]

theorem capture_bounds (body : List Char) (j : Nat) (h2 : 2 ≤ j) (h4 : j ≤ 4)
    (hr : j ≤ (body.takeWhile isUpperPy).length) :
    2 ≤ (pyUpper ⟨body.take j⟩).data.length ∧
      (pyUpper ⟨body.take j⟩).data.length ≤ 4 ∧
      (pyUpper ⟨body.take j⟩).data.all isUpperPy = true := by
  have hall : (body.take j).all isUpperPy = true := take_all_of_le_takeWhile _ _ _ hr
  have hmap : (body.take j).map toUpperPy = body.take j :=
    map_id_of_all (fun c hc => toUpperPy_of_upper hc) _ hall
  have hlen : (body.take j).length = j := by
    rw [List.length_take]
    exact Nat.min_eq_left (hr.trans (takeWhile_length_le _ _))
  refine ⟨?_, ?_, ?_⟩ <;> simp [pyUpper, hmap, hlen, h2, h4, hall]

theorem upperCapChain_shape {body : List Char} {tail : Nat → Bool} {cap : String}
    (h : upperCapChain body tail = some cap) :
    ∃ j : Nat, 2 ≤ j ∧ j ≤ 4 ∧
      j ≤ (body.takeWhile isUpperPy).length ∧ cap = ⟨body.take j⟩ := by
  simp only [upperCapChain] at h
  split at h
  next hc => exact ⟨4, by omega, by omega, hc.1, (Option.some.inj h).symm⟩
  next =>
    split at h
    next hc => exact ⟨3, by omega, by omega, hc.1, (Option.some.inj h).symm⟩
    next =>
      split at h
      next hc => exact ⟨2, by omega, by omega, hc.1, (Option.some.inj h).symm⟩
      next => exact absurd h (by simp)

theorem detect_cap_bounds {s : List Char} {cap : String}
    (h : matchDetect1 s = some cap ∨ matchDetect2 s = some cap) :
    2 ≤ (pyUpper cap).data.length ∧ (pyUpper cap).data.length ≤ 4 ∧
      (pyUpper cap).data.all isUpperPy = true := by
  cases h with
  | inl h1 =>
    simp only [matchDetect1] at h1
    obtain ⟨j, hj2, hj4, hr, hcap⟩ := upperCapChain_shape h1
    subst hcap
    exact capture_bounds _ j hj2 hj4 hr
  | inr hm =>
    simp only [matchDetect2] at hm
    obtain ⟨j, hj2, hj4, hr, hcap⟩ := upperCapChain_shape hm
    subst hcap
    exact capture_bounds _ j hj2 hj4 hr

/-- Claim C5 amended: `detect_prefix` matches case-SENSITIVELY: a
leading 2-4 UPPER-CASE code, optionally pipe-wrapped, followed by a
dash or pipe separator; failing that, a leading pipe-optional 2-4
upper-case code at a word boundary (no separator required); otherwise
the default "EN".  In particular the claim's examples hold, and every
result is either "EN" or 2-4 upper-case letters taken from the
input. -/
theorem c5_detect_amended :
    detectPrefix "|EXYU| - Show Name" = "EXYU" ∧
    detectPrefix "Show Name" = "EN" ∧
    detectPrefix "EN - X" = "EN" ∧
    detectPrefix "|DE| - X" = "DE" ∧
    detectPrefix "en - Show" = "EN" ∧
    detectPrefix "EXYUA - X" = "EN" ∧
    detectPrefix "AB|X" = "AB" ∧
    detectPrefix "" = "EN" ∧
    (∀ g : String, detectPrefix g = "EN" ∨
      (2 ≤ (detectPrefix g).data.length ∧ (detectPrefix g).data.length ≤ 4 ∧
        (detectPrefix g).data.all isUpperPy = true)) := by
  refine ⟨by decide, by decide, by decide, by decide, by decide, by decide, by decide,
    by decide, ?_⟩
  intro g
  by_cases hg : g = ""
  · left; simp [detectPrefix, hg]
  · unfold detectPrefix
    simp only [hg, if_neg, ite_false]
    cases h1 : matchDetect1 (pyStrip g).data with
    | some cap =>
      right
      exact detect_cap_bounds (Or.inl h1)
    | none =>
      cases h2 : matchDetect2 (pyStrip g).data with
      | some cap =>
        right
        exact detect_cap_bounds (Or.inr h2)
      | none => left; rfl

/-! ## Claim C9 -/

/-- Claim C9: with the API credential absent or empty, `enrich` is a
no-op: it returns the items unchanged, leaves the cache untouched,
issues no search request, and does not raise — the early return of
tmdb.py line 387 precedes the session creation, the cache connection
and the genre fetch. -/
theorem c9_no_key_noop (tv multi : String → SearchRes) (movieG tvG : Int → Option String)
    (detailG : String → Int → Option String) (items : List Item) (cfg : TmdbCfg)
    (cache : Cache) (h : cfg.apiKey = none ∨ cfg.apiKey = some "") :
    enrichI tv multi movieG tvG detailG items cfg cache = (items, cache, 0) := by
  have hkey : pyStrip (pyOrStr cfg.apiKey "") = "" := by
    rcases h with h | h <;> rw [h] <;> rfl
  unfold enrichI
  by_cases hi : items = []
  · simp [hi]
  · simp [hi, hkey]

/-- Witness for C9 at a concrete item list and the empty credential. -/
theorem c9_no_key_noop_witness :
    enrichI errO errO noGenre dramaGenre noDetail [bbItem1]
      { apiKey := some "", language := "en-US" } emptyCache = ([bbItem1], emptyCache, 0) :=
  c9_no_key_noop errO errO noGenre dramaGenre noDetail [bbItem1]
    { apiKey := some "", language := "en-US" } emptyCache (Or.inr rfl)

/-! ## Claim C6 -/

theorem subAllGo_caps_head (m : Matcher κ) (repl : List Char) :
    ∀ (fuel : Nat) (prev : Option Char) (s : List Char),
      (subAllGo m repl fuel prev s).2.head? =
        (findFirstGo m fuel prev s).map (fun r => r.2.1) := by
  intro fuel
  induction fuel with
  | zero => intro prev s; rfl
  | succ n ih =>
    intro prev s
    cases s with
    | nil => rfl
    | cons c rest =>
      simp only [subAllGo, findFirstGo]
      cases hm : m prev (c :: rest) with
      | none =>
        simp only [hm]
        rw [ih (some c) rest]
        cases findFirstGo m n (some c) rest <;> rfl
      | some p =>
        obtain ⟨k, cap⟩ := p
        by_cases hk : k = 0
        · simp only [hm, hk, ite_true]
          rw [ih (some c) rest]
          cases findFirstGo m n (some c) rest <;> rfl
        · simp [hm, hk]

theorem foldl_setOnce_some {α : Type} (p : α) (l : List α) :
    l.foldl setOnce (some p) = some p := by
  induction l with
  | nil => rfl
  | cons x xs ih => simpa [setOnce] using ih

theorem foldl_setOnce_head {α : Type} (l : List α) :
    l.foldl setOnce (none : Option α) = l.head? := by
  cases l with
  | nil => rfl
  | cons x xs =>
    simp only [List.foldl, setOnce, List.head?]
    exact foldl_setOnce_some x xs

/-- Claim C6: `_strip_all_se_tokens` removes every (leftmost scan,
non-overlapping) `S<1-2 digits>E<1-2 digits>` occurrence from the text
— that is the `re.sub` pass itself — and the pair it returns is the
one of the FIRST occurrence: later pairs are discarded and never
overwrite it.  The claim's example holds. -/
theorem c6_se_tokens :
    (∀ text : String,
      (stripAllSeTokens text).2.1 = (firstSePair text).map Prod.fst ∧
      (stripAllSeTokens text).2.2 = (firstSePair text).map Prod.snd) ∧
    stripAllSeTokens "Friends S01 E02 The One" = ("Friends The One", some 1, some 2) := by
  constructor
  · intro text
    unfold stripAllSeTokens firstSePair
    by_cases h : text = ""
    · simp [h]
    · simp only [h, ite_false]
      rw [foldl_setOnce_head, subAllGo_caps_head]
      constructor <;> rfl
  · decide

/-! ## Claim C10 -/

theorem transformItem_frame (occIndex : List (String × OccMeta))
    (allOcc : String → Option OccRow) (lang : String) (it : Item) :
    (transformItem occIndex allOcc lang it).url = it.url ∧
    (transformItem occIndex allOcc lang it).tvgId = it.tvgId ∧
    (transformItem occIndex allOcc lang it).rawTitle = it.rawTitle ∧
    (transformItem occIndex allOcc lang it).rawGroup = it.rawGroup ∧
    (transformItem occIndex allOcc lang it).origTitle = it.origTitle ∧
    (transformItem occIndex allOcc lang it).origPrefix = it.origPrefix ∧
    (transformItem occIndex allOcc lang it).origGroup = it.origGroup ∧
    (transformItem occIndex allOcc lang it).status = it.status ∧
    (transformItem occIndex allOcc lang it).lastOk = it.lastOk ∧
    (transformItem occIndex allOcc lang it).lastChecked = it.lastChecked ∧
    (transformItem occIndex allOcc lang it).probeNote = it.probeNote := by
  simp only [transformItem]
  cases h : occLookup occIndex (occKeyOfItem lang it) <;> simp [h]

theorem transformItem_logo (occIndex : List (String × OccMeta))
    (allOcc : String → Option OccRow) (lang : String) (it : Item) :
    (transformItem occIndex allOcc lang it).tvgLogo =
      (match
        (match occLookup occIndex (occKeyOfItem lang it) with
         | some _ => allOcc (occKeyOfItem lang it)
         | none => none) with
       | some r =>
         if pyOrStr r.posterPath "" = "" then it.tvgLogo
         else some ("https://image.tmdb.org/t/p/w154" ++ pyOrStr r.posterPath "")
       | none => it.tvgLogo) := by
  simp only [transformItem]
  cases h : occLookup occIndex (occKeyOfItem lang it) with
  | none => simp [h]
  | some meta =>
    cases hr : allOcc (occKeyOfItem lang it) with
    | none => simp [h, hr, posterOfRow]
    | some r =>
      by_cases hp : pyOrStr r.posterPath "" = ""
      · simp [h, hr, posterOfRow, hp]
      · simp [h, hr, posterOfRow, hp]

/-- Claim C10: `enrich` returns a list of the same length with the
entries in the same order; it never modifies `url` (nor tvg-id,
raw/orig fields, probe fields); it rewrites only
display_title/title/tvg-name, season/episode, group-title and — only
when the item's cluster resolved to a non-empty poster path —
tvg-logo; with no poster the existing tvg-logo is left untouched. -/
theorem c10_frame (tv multi : String → SearchRes) (movieG tvG : Int → Option String)
    (detailG : String → Int → Option String) (items : List Item) (cfg : TmdbCfg)
    (cache : Cache) :
    ((enrichI tv multi movieG tvG detailG items cfg cache).1.length = items.length) ∧
    ∀ i : Nat,
      (((enrichI tv multi movieG tvG detailG items cfg cache).1.get? i).map Item.url = (items.get? i).map Item.url) ∧
      (((enrichI tv multi movieG tvG detailG items cfg cache).1.get? i).map Item.tvgId = (items.get? i).map Item.tvgId) ∧
      (((enrichI tv multi movieG tvG detailG items cfg cache).1.get? i).map Item.rawTitle = (items.get? i).map Item.rawTitle) ∧
      (((enrichI tv multi movieG tvG detailG items cfg cache).1.get? i).map Item.rawGroup = (items.get? i).map Item.rawGroup) ∧
      (((enrichI tv multi movieG tvG detailG items cfg cache).1.get? i).map Item.origTitle = (items.get? i).map Item.origTitle) ∧
      (((enrichI tv multi movieG tvG detailG items cfg cache).1.get? i).map Item.origPrefix = (items.get? i).map Item.origPrefix) ∧
      (((enrichI tv multi movieG tvG detailG items cfg cache).1.get? i).map Item.origGroup = (items.get? i).map Item.origGroup) ∧
      (((enrichI tv multi movieG tvG detailG items cfg cache).1.get? i).map Item.status = (items.get? i).map Item.status) ∧
      (((enrichI tv multi movieG tvG detailG items cfg cache).1.get? i).map Item.lastOk = (items.get? i).map Item.lastOk) ∧
      (((enrichI tv multi movieG tvG detailG items cfg cache).1.get? i).map Item.lastChecked = (items.get? i).map Item.lastChecked) ∧
      (((enrichI tv multi movieG tvG detailG items cfg cache).1.get? i).map Item.probeNote = (items.get? i).map Item.probeNote) ∧
      (((enrichI tv multi movieG tvG detailG items cfg cache).1.get? i).map Item.tvgLogo = (items.get? i).map (fun it =>
        if enrichPosterFor tv multi movieG tvG detailG items cfg cache it = "" then it.tvgLogo
        else some ("https://image.tmdb.org/t/p/w154" ++ enrichPosterFor tv multi movieG tvG detailG items cfg cache it))) := by
  constructor
  · unfold enrichI
    by_cases hi : items = []
    · simp [hi]
    · by_cases hk : pyStrip (pyOrStr cfg.apiKey "") = ""
      · simp [hi, hk]
      · simp [hi, hk]
  · intro i
    unfold enrichI
    by_cases hi : items = []
    · simp [hi]
    · by_cases hk : pyStrip (pyOrStr cfg.apiKey "") = ""
      · have hp : ∀ it, enrichPosterFor tv multi movieG tvG detailG items cfg cache it = "" := by
          intro it
          unfold enrichPosterFor enrichRowFor
          simp [hi, hk]
        simp [hi, hk, hp]
      · simp only [hi, hk, ite_false]
        cases hgi : items.get? i with
        | none =>
          simp only [List.get?_map, hgi, Option.map_none']
          simp
        | some it =>
          have hfr := transformItem_frame (buildOccIndex cfg.language items)
            (enrichAllOccF tv multi movieG tvG detailG items cfg cache) cfg.language it
          have hpe : enrichPosterFor tv multi movieG tvG detailG items cfg cache it =
              (match
                (match occLookup (buildOccIndex cfg.language items)
                    (occKeyOfItem cfg.language it) with
                 | some _ => enrichAllOccF tv multi movieG tvG detailG items cfg cache
                     (occKeyOfItem cfg.language it)
                 | none => none) with
               | some r => pyOrStr r.posterPath ""
               | none => "") := by
            unfold enrichPosterFor enrichRowFor
            simp only [hi, hk, ite_false]
          simp only [List.get?_map, hgi, Option.map_some']
          refine ⟨congrArg some hfr.1, congrArg some hfr.2.1, congrArg some hfr.2.2.1,
            congrArg some hfr.2.2.2.1, congrArg some hfr.2.2.2.2.1,
            congrArg some hfr.2.2.2.2.2.1, congrArg some hfr.2.2.2.2.2.2.1,
            congrArg some hfr.2.2.2.2.2.2.2.1, congrArg some hfr.2.2.2.2.2.2.2.2.1,
            congrArg some hfr.2.2.2.2.2.2.2.2.2.1, congrArg some hfr.2.2.2.2.2.2.2.2.2.2, ?_⟩
          rw [transformItem_logo, hpe]
          cases occLookup (buildOccIndex cfg.language items) (occKeyOfItem cfg.language it) with
          | none => rfl
          | some m =>
            cases enrichAllOccF tv multi movieG tvG detailG items cfg cache
                (occKeyOfItem cfg.language it) with
            | none => rfl
            | some r =>
              by_cases hq : pyOrStr r.posterPath "" = ""
              · simp [hq]
              · simp [hq]

/-! ## Claim C2 -/

theorem occLookup_mem : ∀ {l : List (String × OccMeta)} {k : String} {m : OccMeta},
    occLookup l k = some m → (k, m) ∈ l := by
  intro l
  induction l with
  | nil => intro k m h; exact absurd h (by simp [occLookup])
  | cons kv rest ih =>
    intro k m h
    unfold occLookup at h
    by_cases hk : kv.1 = k
    · simp only [hk, if_pos, ite_true, Option.some.injEq] at h
      subst hk
      subst h
      exact List.mem_cons_self _ _
    · simp only [hk, ite_false] at h
      exact List.mem_cons_of_mem _ (ih h)

/-- Claim C2 counterexample: with the cache holding exactly the
negative record a previous run persisted for the claim's cluster key,
a later run of `enrich` over an entry mapping to that key still issues
search requests for it — the cached-row load of tmdb.py lines 430-439
keeps only positive rows, so the key re-enters `to_fetch` and the
worker re-queries the search endpoints. -/
theorem c2_negative_retried_cex :
    enrichSearchCallsFor errO errO noGenre dramaGenre noDetail [bbItem1] cfgEn
      (cacheUpsert emptyCache (occKeyOfItem "en-US" bbItem1) negRow)
      (occKeyOfItem "en-US" bbItem1) ≠ 0 := by decide

/-- Claim C2 amended: a POSITIVE cached record (media kind tv/movie
with a truthy id) for a cluster key suppresses its lookup — zero
search requests are issued for that key; a negative record does not
suppress anything: whenever entries of the run map to the key, the key
re-enters the to-fetch set, i.e. negative outcomes are silently
retried on every run. -/
theorem c2_cache_amended (tv multi : String → SearchRes) (movieG tvG : Int → Option String)
    (detailG : String → Int → Option String) (items : List Item) (cfg : TmdbCfg)
    (cache : Cache) (key : String) :
    (∀ r : OccRow, cache key = some r → rowPositive r = true →
      enrichSearchCallsFor tv multi movieG tvG detailG items cfg cache key = 0) ∧
    (∀ r : OccRow, cache key = some r → rowPositive r = false →
      (occLookup (buildOccIndex cfg.language items) key).isSome = true →
      items ≠ [] → pyStrip (pyOrStr cfg.apiKey "") ≠ "" →
      key ∈ enrichToFetchKeys items cfg cache) := by
  constructor
  · intro r hr hpos
    unfold enrichSearchCallsFor
    by_cases hi : items = []
    · simp [hi]
    · by_cases hk : pyStrip (pyOrStr cfg.apiKey "") = ""
      · simp [hi, hk]
      · simp only [hi, hk, ite_false]
        have hc1 : cacheAfterSave cfg.language (buildOccIndex cfg.language items) cache key
            = some r := by
          unfold cacheAfterSave
          cases occLookup (buildOccIndex cfg.language items) key <;> simp [hr]
        have hfind : (pairsToFetch (buildOccIndex cfg.language items)
            (cacheAfterSave cfg.language (buildOccIndex cfg.language items) cache)).find?
              (fun kv => kv.1 == key) = none := by
          rw [List.find?_eq_none]
          intro kv hkv hbeq
          have hkeq : kv.1 = key := by simpa using hbeq
          rw [pairsToFetch, List.mem_filter] at hkv
          have h2 := hkv.2
          rw [hkeq] at h2
          unfold cachedPositive at h2
          rw [hc1] at h2
          simp [hpos] at h2
        rw [hfind]
  · intro r hr hneg hmem hne hkne
    unfold enrichToFetchKeys
    simp only [hne, hkne, ite_false]
    obtain ⟨meta, hlk⟩ := Option.isSome_iff_exists.mp hmem
    have hc1 : cacheAfterSave cfg.language (buildOccIndex cfg.language items) cache key
        = some r := by
      unfold cacheAfterSave
      cases occLookup (buildOccIndex cfg.language items) key <;> simp [hr]
    have hfilter : (key, meta) ∈ pairsToFetch (buildOccIndex cfg.language items)
        (cacheAfterSave cfg.language (buildOccIndex cfg.language items) cache) := by
      rw [pairsToFetch, List.mem_filter]
      refine ⟨occLookup_mem hlk, ?_⟩
      unfold cachedPositive
      rw [hc1]
      simp [hneg]
    exact List.mem_map.mpr ⟨(key, meta), hfilter, rfl⟩

/-- Witness for the amended C2 theorem: the positive record suppresses
the search entirely, the negative record sends the key back into the
to-fetch set. -/
theorem c2_cache_amended_witness :
    enrichSearchCallsFor errO errO noGenre dramaGenre noDetail [bbItem1] cfgEn
      (cacheUpsert emptyCache (occKeyOfItem "en-US" bbItem1) posRow)
      (occKeyOfItem "en-US" bbItem1) = 0 ∧
    occKeyOfItem "en-US" bbItem1 ∈ enrichToFetchKeys [bbItem1] cfgEn
      (cacheUpsert emptyCache (occKeyOfItem "en-US" bbItem1) negRow) := by
  constructor
  · exact (c2_cache_amended errO errO noGenre dramaGenre noDetail [bbItem1] cfgEn
      (cacheUpsert emptyCache (occKeyOfItem "en-US" bbItem1) posRow)
      (occKeyOfItem "en-US" bbItem1)).1 posRow (by simp [cacheUpsert]) (by decide)
  · exact (c2_cache_amended errO errO noGenre dramaGenre noDetail [bbItem1] cfgEn
      (cacheUpsert emptyCache (occKeyOfItem "en-US" bbItem1) negRow)
      (occKeyOfItem "en-US" bbItem1)).2 negRow (by simp [cacheUpsert]) (by decide)
      (by decide) (by decide) (by decide)

/-! ## Claim C3 -/

theorem seriesTitleFor_const (r : OccRow) (ht : pyOrStr r.title "" ≠ "") (q1 q2 : String) :
    seriesTitleFor (some r) q1 = seriesTitleFor (some r) q2 := by
  unfold seriesTitleFor
  cases hrt : r.title with
  | none => exact absurd (by simp only [pyOrStr, hrt]) ht
  | some t =>
    by_cases h0 : t = ""
    · exact absurd (by simp only [pyOrStr, hrt, if_pos h0]) ht
    · simp only [pyOrStr, hrt, if_neg h0]

/-- Claim C3 counterexample: the case-variant entries share one
cluster key, yet on a run whose lookup misses (so the cluster stays
unresolved), the apply loop falls back to each member's OWN parsed
series query (tmdb.py lines 541, 546-551) and the display-title bases
differ in case between the two members of the cluster. -/
theorem c3_cluster_cex :
    occKeyOfItem "en-US" caseItem1 = occKeyOfItem "en-US" caseItem2 ∧
    enrichBaseFor errO errO noGenre dramaGenre noDetail [caseItem1, caseItem2] cfgEn
      emptyCache caseItem1 = "EN - Breaking Bad" ∧
    enrichBaseFor errO errO noGenre dramaGenre noDetail [caseItem1, caseItem2] cfgEn
      emptyCache caseItem2 = "EN - BREAKING BAD" ∧
    enrichBaseFor errO errO noGenre dramaGenre noDetail [caseItem1, caseItem2] cfgEn
      emptyCache caseItem1 ≠
    enrichBaseFor errO errO noGenre dramaGenre noDetail [caseItem1, caseItem2] cfgEn
      emptyCache caseItem2 := by decide

/-- Claim C3 amended: two entries sharing a cluster key always receive
byte-identical group titles (the group is computed from cluster-level
data only), and their display-title bases (prefix and series base
title) are byte-identical whenever the cluster resolved to a row whose
stored title is non-empty — but NOT in general: on an unresolved
cluster each member keeps its own parsed series query, so the bases
may differ (see the counterexample). -/
theorem c3_cluster_amended (tv multi : String → SearchRes) (movieG tvG : Int → Option String)
    (detailG : String → Int → Option String) (items : List Item) (cfg : TmdbCfg)
    (cache : Cache) (it1 it2 : Item)
    (hkey : occKeyOfItem cfg.language it1 = occKeyOfItem cfg.language it2) :
    enrichGroupFor tv multi movieG tvG detailG items cfg cache it1
      = enrichGroupFor tv multi movieG tvG detailG items cfg cache it2 ∧
    ∀ r : OccRow, enrichRowFor tv multi movieG tvG detailG items cfg cache it1 = some r →
      pyOrStr r.title "" ≠ "" →
      enrichBaseFor tv multi movieG tvG detailG items cfg cache it1
        = enrichBaseFor tv multi movieG tvG detailG items cfg cache it2 := by
  constructor
  · unfold enrichGroupFor
    rw [hkey]
  · intro r hr ht
    unfold enrichRowFor at hr
    by_cases hi : items = []
    · rw [if_pos hi] at hr
      exact absurd hr (by simp)
    · rw [if_neg hi] at hr
      by_cases hk : pyStrip (pyOrStr cfg.apiKey "") = ""
      · rw [if_pos hk] at hr
        exact absurd hr (by simp)
      · rw [if_neg hk] at hr
        rw [hkey] at hr
        unfold enrichBaseFor
        rw [hkey, if_neg hi, if_neg hk, if_neg hi, if_neg hk]
        cases hm : occLookup (buildOccIndex cfg.language items)
            (occKeyOfItem cfg.language it2) with
        | none => rfl
        | some meta =>
          simp only [hm] at hr ⊢
          rw [hr]
          simp only [displayPartsFor]
          rw [seriesTitleFor_const r ht]

/-- Witness for the amended C3 theorem: on a run whose lookup resolves
the cluster (the TMDB title "Breaking Bad" is stored), the case-variant
members get identical group titles and identical display-title bases. -/
theorem c3_cluster_amended_witness :
    occKeyOfItem "en-US" caseItem1 = occKeyOfItem "en-US" caseItem2 ∧
    enrichGroupFor hitTvO errO noGenre dramaGenre noDetail [caseItem1, caseItem2] cfgEn
      emptyCache caseItem1
      = enrichGroupFor hitTvO errO noGenre dramaGenre noDetail [caseItem1, caseItem2] cfgEn
        emptyCache caseItem2 ∧
    enrichBaseFor hitTvO errO noGenre dramaGenre noDetail [caseItem1, caseItem2] cfgEn
      emptyCache caseItem1
      = enrichBaseFor hitTvO errO noGenre dramaGenre noDetail [caseItem1, caseItem2] cfgEn
        emptyCache caseItem2 := by
  have hkey : occKeyOfItem cfgEn.language caseItem1 = occKeyOfItem cfgEn.language caseItem2 := by
    decide
  have h := c3_cluster_amended hitTvO errO noGenre dramaGenre noDetail
    [caseItem1, caseItem2] cfgEn emptyCache caseItem1 caseItem2 hkey
  exact ⟨hkey, h.1, h.2 posRow (by decide) (by decide)⟩

/-! ## Claim C8 -/

/-- Claim C8 counterexample: two entries with identical sort keys
(same group, same display title, no season/episode) come out of the
stable sort in input order, so swapping them in the input swaps the
url lines of the written file — the output is NOT invariant under
every permutation of the input entries. -/
theorem c8_write_cex :
    writeOut [tieItem1, tieItem2] ≠ writeOut [tieItem2, tieItem1] := by decide

/-- Claim C8 amended: the serializer's output is sorted by the
explicit key (group, series key, season, episode, cleaned display
title); the written file is invariant under permutations of the input
whenever no two entries share a sort key — with key ties, input order
shows through (Python's `sorted` is stable; see the counterexample). -/
theorem c8_write_amended :
    (∀ items : List Item,
      List.Sorted (fun a b : Item => sortKey a ≤ sortKey b) (sortItems items)) ∧
    (∀ l1 l2 : List Item, l1.Perm l2 →
      l1.Pairwise (fun a b : Item => sortKey a ≠ sortKey b) →
      writeOut l1 = writeOut l2) := by
  haveI hT : IsTotal Item (fun a b : Item => sortKey a ≤ sortKey b) :=
    ⟨fun a b => le_total _ _⟩
  haveI hTr : IsTrans Item (fun a b : Item => sortKey a ≤ sortKey b) :=
    ⟨fun _ _ _ => le_trans⟩
  constructor
  · exact fun items => List.sorted_insertionSort _ items
  · intro l1 l2 hperm hpw
    have hpw1 : (sortItems l1).Pairwise (fun a b : Item => sortKey a ≠ sortKey b) :=
      (List.Perm.pairwise_iff (fun h he => h he.symm)
        (List.perm_insertionSort _ l1)).mpr hpw
    have hpw2 : (sortItems l2).Pairwise (fun a b : Item => sortKey a ≠ sortKey b) :=
      (List.Perm.pairwise_iff (fun h he => h he.symm)
        (List.perm_insertionSort _ l2)).mpr
        ((List.Perm.pairwise_iff (fun h he => h he.symm) hperm).mp hpw)
    have hs1 : (sortItems l1).Pairwise (fun a b : Item => sortKey a < sortKey b) :=
      ((List.sorted_insertionSort _ l1).and hpw1).imp
        (fun h => lt_of_le_of_ne h.1 h.2)
    have hs2 : (sortItems l2).Pairwise (fun a b : Item => sortKey a < sortKey b) :=
      ((List.sorted_insertionSort _ l2).and hpw2).imp
        (fun h => lt_of_le_of_ne h.1 h.2)
    have hp : (sortItems l1).Perm (sortItems l2) :=
      (List.perm_insertionSort _ l1).trans
        (hperm.trans (List.perm_insertionSort _ l2).symm)
    haveI : IsAntisymm Item (fun a b : Item => sortKey a < sortKey b) :=
      ⟨fun _ _ h1 h2 => absurd h2 (lt_asymm h1)⟩
    have hsi : sortItems l1 = sortItems l2 := List.eq_of_perm_of_sorted hp hs1 hs2
    unfold writeOut
    rw [hsi]

/-- Witness for the amended C8 theorem: two entries with distinct sort
keys produce the same written file in either input order. -/
theorem c8_write_amended_witness :
    [distItem1, distItem2].Perm [distItem2, distItem1] ∧
    [distItem1, distItem2].Pairwise (fun a b : Item => sortKey a ≠ sortKey b) ∧
    writeOut [distItem1, distItem2] = writeOut [distItem2, distItem1] := by
  have hperm : [distItem1, distItem2].Perm [distItem2, distItem1] :=
    List.Perm.swap distItem2 distItem1 []
  have hpw : [distItem1, distItem2].Pairwise (fun a b : Item => sortKey a ≠ sortKey b) := by
    decide
  exact ⟨hperm, hpw, c8_write_amended.2 _ _ hperm hpw⟩

/-! ## Claim C7 -/

theorem stripList_length_le (p : Char → Bool) (l : List Char) :
    (stripList p l).length ≤ l.length := by
  have h1 : ∀ m : List Char, (m.dropWhile p).length ≤ m.length :=
    fun m => (List.dropWhile_sublist p).length_le
  simp only [stripList, dropTrailing, List.length_reverse]
  calc ((l.dropWhile p).reverse.dropWhile p).length
      ≤ (l.dropWhile p).reverse.length := h1 _
    _ = (l.dropWhile p).length := List.length_reverse _
    _ ≤ l.length := h1 l

theorem findFirstGo_pre_lt (m : Matcher κ) :
    ∀ (fuel : Nat) (prev : Option Char) (s : List Char) (r : List Char × κ × List Char),
      findFirstGo m fuel prev s = some r → r.1.length < s.length := by
  intro fuel
  induction fuel with
  | zero =>
    intro prev s r h
    exact absurd h (by simp [findFirstGo])
  | succ fuel ih =>
    intro prev s r h
    cases s with
    | nil => exact absurd h (by simp [findFirstGo])
    | cons c rest =>
      unfold findFirstGo at h
      cases hm : m prev (c :: rest) with
      | none =>
        rw [hm] at h
        cases hr : findFirstGo m fuel (some c) rest with
        | none => rw [hr] at h; exact absurd h (by simp)
        | some r' =>
          rw [hr] at h
          simp only [Option.map_some', Option.some.injEq] at h
          have := ih (some c) rest r' hr
          rw [← h]
          simpa using Nat.succ_lt_succ this
      | some nc =>
        rw [hm] at h
        obtain ⟨n, cap⟩ := nc
        dsimp only at h
        by_cases hn : n = 0
        · rw [if_pos hn] at h
          cases hr : findFirstGo m fuel (some c) rest with
          | none => rw [hr] at h; exact absurd h (by simp)
          | some r' =>
            rw [hr] at h
            simp only [Option.map_some', Option.some.injEq] at h
            have := ih (some c) rest r' hr
            rw [← h]
            simpa using Nat.succ_lt_succ this
        · rw [if_neg hn] at h
          simp only [Option.some.injEq] at h
          rw [← h]
          simp

theorem pySplit1_pre_lt (m : Matcher κ) (s : List Char) (pr : List Char × List Char)
    (h : pySplit1 m s = some pr) : pr.1.length < s.length := by
  unfold pySplit1 at h
  cases hr : findFirstGo m s.length none s with
  | none => rw [hr] at h; exact absurd h (by simp)
  | some r =>
    rw [hr] at h
    simp only [Option.map_some', Option.some.injEq] at h
    have := findFirstGo_pre_lt m s.length none s r hr
    rw [← h]
    exact this

theorem dash_pre_ne (t : String) (pr : List Char × List Char)
    (h : pySplit1 matchDashSplit t.data = some pr) :
    pyStrip ⟨pr.1⟩ ≠ t := by
  intro he
  have h1 : (pyStrip ⟨pr.1⟩).data.length ≤ pr.1.length := stripList_length_le isSpacePy pr.1
  have h2 : pr.1.length < t.data.length := pySplit1_pre_lt matchDashSplit t.data pr h
  rw [he] at h1
  omega

theorem candStep_cases (cands : List String) (c : String) :
    candStep cands c = cands ∨ candStep cands c = cands ++ [c] := by
  unfold candStep
  by_cases h : c ≠ "" ∧ ¬ cands.contains c
  · exact Or.inr (if_pos h)
  · exact Or.inl (if_neg h)

theorem candStep_length_le (cands : List String) (c : String) :
    (candStep cands c).length ≤ cands.length + 1 := by
  rcases candStep_cases cands c with h | h <;> rw [h] <;> simp

theorem foldl_candStep_prefix :
    ∀ (l : List String) (acc : List String), ∃ ys, l.foldl candStep acc = acc ++ ys := by
  intro l
  induction l with
  | nil => intro acc; exact ⟨[], (List.append_nil acc).symm⟩
  | cons c l ih =>
    intro acc
    obtain ⟨ys, hy⟩ := ih (candStep acc c)
    rcases candStep_cases acc c with h | h
    · exact ⟨ys, by rw [List.foldl_cons, hy, h]⟩
    · exact ⟨c :: ys, by rw [List.foldl_cons, hy, h, List.append_assoc]; rfl⟩

theorem backoffLoop_eq_foldl (toks : List String) :
    ∀ (ks : List Nat) (cands : List String), cands.length < 6 →
      (backoffLoop toks ks cands).take 6
        = ((ks.map (backoffSeed toks)).foldl candStep cands).take 6 := by
  intro ks
  induction ks with
  | nil => intro cands _; rfl
  | cons keep ks ih =>
    intro cands h
    simp only [backoffLoop, List.map_cons, List.foldl_cons]
    by_cases h6 : 6 ≤ (candStep cands (backoffSeed toks keep)).length
    · rw [if_pos h6]
      have hlen : (candStep cands (backoffSeed toks keep)).length = 6 :=
        le_antisymm (le_trans (candStep_length_le _ _) (by omega)) h6
      obtain ⟨ys, hy⟩ :=
        foldl_candStep_prefix (ks.map (backoffSeed toks)) (candStep cands (backoffSeed toks keep))
      rw [hy, List.take_of_length_le (le_of_eq hlen), ← hlen, List.take_left]
    · rw [if_neg h6]
      exact ih _ (Nat.lt_of_not_le h6)

theorem foldl_dedupStep_filter :
    ∀ (l acc : List String),
      (l.filter (fun c => c ≠ "")).foldl dedupStep acc = l.foldl candStep acc := by
  intro l
  induction l with
  | nil => intro acc; rfl
  | cons c l ih =>
    intro acc
    by_cases hc : c = ""
    · subst hc
      have hstep : candStep acc "" = acc := by simp [candStep]
      simp only [List.filter_cons, List.foldl_cons, hstep]
      simpa using ih acc
    · have hstep : dedupStep acc c = candStep acc c := by
        by_cases hm : acc.contains c <;> simp [dedupStep, candStep, hc, hm]
      simp only [List.filter_cons, List.foldl_cons]
      rw [if_pos (by simpa using hc)]
      rw [List.foldl_cons, hstep]
      exact ih _

theorem simplify_tail_eq (t : String) (cands1 : List String) (hlen : cands1.length ≤ 2) :
    (backoffLoop (pySplitWs t) (List.range' 2 ((pySplitWs t).length - 2)).reverse
        (if t.data.contains ':'
          then candStep (candStep cands1 (pyStrip (beforeChar '(' t)))
            (pyStrip (beforeChar ':' t))
          else candStep cands1 (pyStrip (beforeChar '(' t)))).take 6
      = (List.foldl candStep
          (List.foldl candStep
            (List.foldl candStep cands1 [pyStrip (beforeChar '(' t)])
            (if t.data.contains ':' then [pyStrip (beforeChar ':' t)] else []))
          ((List.range' 2 ((pySplitWs t).length - 2)).reverse.map
            (backoffSeed (pySplitWs t)))).take 6 := by
  have hp : List.foldl candStep cands1 [pyStrip (beforeChar '(' t)]
      = candStep cands1 (pyStrip (beforeChar '(' t)) := by simp
  rw [hp]
  have h3 : (candStep cands1 (pyStrip (beforeChar '(' t))).length ≤ 3 :=
    le_trans (candStep_length_le _ _) (by omega)
  by_cases hcol : t.data.contains ':' = true
  · rw [if_pos hcol, if_pos hcol]
    rw [show List.foldl candStep (candStep cands1 (pyStrip (beforeChar '(' t)))
        [pyStrip (beforeChar ':' t)]
        = candStep (candStep cands1 (pyStrip (beforeChar '(' t)))
          (pyStrip (beforeChar ':' t)) from by simp]
    refine backoffLoop_eq_foldl (pySplitWs t) _ _ ?_
    have h4 := candStep_length_le (candStep cands1 (pyStrip (beforeChar '(' t)))
      (pyStrip (beforeChar ':' t))
    omega
  · rw [if_neg hcol, if_neg hcol]
    rw [List.foldl_nil]
    exact backoffLoop_eq_foldl (pySplitWs t) _ _ (by omega)

theorem simplify_eq_spec (q : String) : simplifyCandidates q = specCandidates q := by
  simp only [simplifyCandidates, specCandidates]
  by_cases ht : pyStrip q = ""
  · simp [ht]
  · rw [if_neg ht, if_neg ht]
    rw [show dedupKeepFirst (candidateSeeds (pyStrip q))
        = (candidateSeedsRaw (pyStrip q)).foldl candStep [] from by
      unfold dedupKeepFirst candidateSeeds
      exact foldl_dedupStep_filter (candidateSeedsRaw (pyStrip q)) []]
    simp only [candidateSeedsRaw]
    rw [List.foldl_append, List.foldl_append, List.foldl_append, List.foldl_append]
    rw [show List.foldl candStep [] [pyStrip q] = [pyStrip q] from by simp [candStep, ht]]
    cases hpd : pySplit1 matchDashSplit (pyStrip q).data with
    | none =>
      simp only [List.foldl_nil]
      exact simplify_tail_eq (pyStrip q) [pyStrip q] (by simp)
    | some pr =>
      dsimp only
      by_cases hdq : pyStrip (⟨pr.1⟩ : String) = ""
      · rw [show (if pyStrip (⟨pr.1⟩ : String) ≠ "" then [pyStrip q] ++ [pyStrip (⟨pr.1⟩ : String)]
            else [pyStrip q]) = [pyStrip q] from by simp [hdq]]
        rw [show List.foldl candStep [pyStrip q] [pyStrip (⟨pr.1⟩ : String)] = [pyStrip q] from by
          simp [candStep, hdq]]
        exact simplify_tail_eq (pyStrip q) [pyStrip q] (by simp)
      · have hne : pyStrip (⟨pr.1⟩ : String) ≠ pyStrip q := dash_pre_ne (pyStrip q) pr hpd
        rw [show (if pyStrip (⟨pr.1⟩ : String) ≠ "" then [pyStrip q] ++ [pyStrip (⟨pr.1⟩ : String)]
            else [pyStrip q]) = [pyStrip q] ++ [pyStrip (⟨pr.1⟩ : String)] from by simp [hdq]]
        rw [show List.foldl candStep [pyStrip q] [pyStrip (⟨pr.1⟩ : String)]
            = [pyStrip q] ++ [pyStrip (⟨pr.1⟩ : String)] from by
          simp [candStep, hdq, hne]]
        exact simplify_tail_eq (pyStrip q) ([pyStrip q] ++ [pyStrip (⟨pr.1⟩ : String)]) (by simp)

theorem searchLoop_fst (f : String → SearchRes) :
    ∀ l : List String, (searchLoop f l).1 = firstHit (l.map f) := by
  intro l
  induction l with
  | nil => rfl
  | cons q qs ih =>
    simp only [searchLoop, List.map_cons]
    cases hf : f q with
    | hit h => simp [firstHit, hf]
    | err e => simp only [hf, firstHit]; exact ih

theorem firstHit_append (l1 l2 : List SearchRes) :
    firstHit (l1 ++ l2)
      = match firstHit l1 with
        | some h => some h
        | none => firstHit l2 := by
  induction l1 with
  | nil => rfl
  | cons r l ih =>
    cases r with
    | hit h => rfl
    | err e => simpa [firstHit] using ih

theorem tryTmdb_eq_firstHit (tv multi : String → SearchRes) (q : String) :
    tryTmdb tv multi q
      = firstHit ((simplifyCandidates q).map tv ++ (simplifyCandidates q).map multi) := by
  simp only [tryTmdb, tryTmdbI]
  rw [firstHit_append, ← searchLoop_fst tv, ← searchLoop_fst multi]
  cases hc : (searchLoop tv (simplifyCandidates q)).1 <;> simp [hc]

/-- Claim C7: the candidate list is exactly the claim's description —
original cleaned title, text before the first (space-surrounded) dash,
before the first parenthesis, before the first colon, then token
prefixes from one-less-than-all down to two tokens, empty seeds
skipped, first-seen deduplicated, capped at six — and the lookup tries
the tv search over all candidates before the multi search over any,
returning the first non-error result. -/
theorem c7_candidates_confirmed :
    (∀ q : String, simplifyCandidates q = specCandidates q) ∧
    (∀ (tv multi : String → SearchRes) (q : String),
      tryTmdb tv multi q
        = firstHit ((simplifyCandidates q).map tv ++ (simplifyCandidates q).map multi)) :=
  ⟨simplify_eq_spec, tryTmdb_eq_firstHit⟩

end IptvTester

